import Mathlib

/-!
Verification of the exisort media importer against its specification.

Byte-level code (the `exifdate` package: container sniffing, JPEG/PNG/HEIC
extraction, TIFF tag reading, date parsing) is embedded over `List Nat`
byte sequences; the import pipeline (`import.go`) is embedded over an
explicit filesystem state mapping paths to byte contents.  Go's machine
integers are modelled as `Nat` with explicit `% 2^64` where wrap-around
matters; fallible Go code returns `Except`/`Option`; Go runtime panics are
modelled by a dedicated result constructor so panic-freedom is a provable
statement.
-/

namespace Exisort

/-- A byte sequence (each entry is one byte of the file/stream). -/
abbrev Bytes := List Nat

/-- A Go `error` value.  `unsupported` records whether
`errors.Is(err, exifdate.ErrUnsupported)` holds (all unsupported errors in
the source are produced by wrapping `ErrUnsupported` with `%w`);
`eofFlag` records whether the error is exactly `io.EOF` (as opposed to
`io.ErrUnexpectedEOF` or another error), which `scanBoxes` distinguishes. -/
structure GoErr where
  unsupported : Bool
  eofFlag : Bool
  msg : String
  deriving DecidableEq, Repr

instance {ε α : Type} [DecidableEq ε] [DecidableEq α] :
    DecidableEq (Except ε α) := fun x y =>
  match x, y with
  | .ok a, .ok b =>
      match decEq a b with
      | isTrue h => isTrue (by rw [h])
      | isFalse h => isFalse (fun hc => h (Except.ok.inj hc))
  | .error e, .error f =>
      match decEq e f with
      | isTrue h => isTrue (by rw [h])
      | isFalse h => isFalse (fun hc => h (Except.error.inj hc))
  | .ok _, .error _ => isFalse (fun hc => Except.noConfusion hc)
  | .error _, .ok _ => isFalse (fun hc => Except.noConfusion hc)

/-- Constructor for plain (non-unsupported, non-EOF) errors. -/
def plainErr (m : String) : GoErr := ⟨false, false, m⟩

/-- Constructor for errors wrapping `ErrUnsupported` (Go `%w`). -/
def unsupErr (m : String) : GoErr := ⟨true, false, m⟩

/-- The `io.EOF` error value. -/
def eofErr : GoErr := ⟨false, true, "EOF"⟩

/-- The `io.ErrUnexpectedEOF` error value. -/
def unexpectedEofErr : GoErr := ⟨false, false, "unexpected EOF"⟩

/-- Whether an `Except` result is an error wrapping `ErrUnsupported`. -/
def errUnsup : Except GoErr α → Bool
  | .error e => e.unsupported
  | .ok _ => false

/-- A Go `time.Time` restricted to the fields the program ever produces or
consumes: calendar fields plus a zone offset in minutes. -/
structure DateTime where
  year : Nat
  month : Nat
  day : Nat
  hour : Nat
  minute : Nat
  second : Nat
  offsetMin : Int
  deriving DecidableEq, Repr

/-! ## Go `time.Parse` for the six fixed layouts of `exifdate.nativeLayouts`

The layouts use only the reference-time tokens `2006`, `01`, `02`, `15`,
`04`, `05` and `-07:00`; every other character (including the `+07:00` run,
which is *not* a Go layout token) is a literal.  Go parses `01`, `02`,
`04`, `05`, `2006` as fixed-width digit runs, `15` as a one-or-two digit
run, and validates calendar ranges after parsing. -/

/-- Parse exactly two ASCII digits (Go `getnum` with `fixed = true`). -/
def getnum2 : List Char → Option (Nat × List Char)
  | a :: b :: rest =>
      if a.isDigit && b.isDigit then
        some ((a.toNat - 48) * 10 + (b.toNat - 48), rest)
      else none
  | _ => none

/-- Parse one or two ASCII digits (Go `getnum` with `fixed = false`),
used for the `15` (hour) token. -/
def getnum12 : List Char → Option (Nat × List Char)
  | a :: b :: rest =>
      if a.isDigit then
        if b.isDigit then some ((a.toNat - 48) * 10 + (b.toNat - 48), rest)
        else some (a.toNat - 48, b :: rest)
      else none
  | [a] => if a.isDigit then some (a.toNat - 48, []) else none
  | [] => none

/-- Parse exactly four ASCII digits (the `2006` year token). -/
def getnum4 : List Char → Option (Nat × List Char)
  | a :: b :: c :: d :: rest =>
      if a.isDigit && b.isDigit && c.isDigit && d.isDigit then
        some ((((a.toNat - 48) * 10 + (b.toNat - 48)) * 10 + (c.toNat - 48)) * 10
                + (d.toNat - 48), rest)
      else none
  | _ => none

/-- Parse a `±hh:mm` zone offset (the `-07:00` token), returning the
offset in minutes. -/
def parseZone : List Char → Option (Int × List Char)
  | s :: h1 :: h2 :: ':' :: m1 :: m2 :: rest =>
      if (s = '+' || s = '-') && h1.isDigit && h2.isDigit && m1.isDigit && m2.isDigit then
        let hh := (h1.toNat - 48) * 10 + (h2.toNat - 48)
        let mm := (m1.toNat - 48) * 10 + (m2.toNat - 48)
        let total : Int := (hh * 60 + mm : Nat)
        some (if s = '-' then -total else total, rest)
      else none
  | _ => none

/-- Run a layout (first list) against an input (second list), accumulating
parsed fields.  Mirrors Go's `time.Parse` token loop for the tokens that
occur in `nativeLayouts`; trailing unconsumed input is an error. -/
def runLayout : List Char → List Char → DateTime → Option DateTime
  | [], [], dt => some dt
  | [], _ :: _, _ => none
  | '2' :: '0' :: '0' :: '6' :: lt, v, dt =>
      (getnum4 v).bind fun p => runLayout lt p.2 { dt with year := p.1 }
  | '0' :: '1' :: lt, v, dt =>
      (getnum2 v).bind fun p => runLayout lt p.2 { dt with month := p.1 }
  | '0' :: '2' :: lt, v, dt =>
      (getnum2 v).bind fun p => runLayout lt p.2 { dt with day := p.1 }
  | '1' :: '5' :: lt, v, dt =>
      (getnum12 v).bind fun p => runLayout lt p.2 { dt with hour := p.1 }
  | '0' :: '4' :: lt, v, dt =>
      (getnum2 v).bind fun p => runLayout lt p.2 { dt with minute := p.1 }
  | '0' :: '5' :: lt, v, dt =>
      (getnum2 v).bind fun p => runLayout lt p.2 { dt with second := p.1 }
  | '-' :: '0' :: '7' :: ':' :: '0' :: '0' :: lt, v, dt =>
      (parseZone v).bind fun p => runLayout lt p.2 { dt with offsetMin := p.1 }
  | c :: lt, d :: v, dt => if c = d then runLayout lt v dt else none
  | _ :: _, [], _ => none

/-- Leap-year test (Gregorian, as Go's `isLeap`). -/
def isLeap (y : Nat) : Bool := y % 4 = 0 && (y % 100 ≠ 0 || y % 400 = 0)

/-- Days in a month (Go `daysIn`). -/
def daysIn (m y : Nat) : Nat :=
  if m = 2 then (if isLeap y then 29 else 28)
  else if m = 4 || m = 6 || m = 9 || m = 11 then 30
  else 31

/-- Go `time.Parse` range validation: month, day, hour, minute and second
must be in calendar range, otherwise parsing fails. -/
def validateDT (dt : DateTime) : Option DateTime :=
  if 1 ≤ dt.month && dt.month ≤ 12 && 1 ≤ dt.day && dt.day ≤ daysIn dt.month dt.year
      && dt.hour < 24 && dt.minute < 60 && dt.second < 60 then
    some dt
  else none

/-- Go `time.ParseInLocation layout s` for the layouts of
`nativeLayouts` (the location only affects the zone attached to the
result, which the program never inspects). -/
def goTimeParse (layout s : String) : Option DateTime :=
  (runLayout layout.data s.data ⟨0, 1, 1, 0, 0, 0, 0⟩).bind validateDT

/-- Embeds `exifdate.nativeLayouts`. -/
def nativeLayouts : List String :=
  ["2006:01:02 15:04:05",
   "2006:01:02 15:04:05-07:00",
   "2006:01:02 15:04:05+07:00",
   "2006-01-02 15:04:05",
   "2006-01-02 15:04:05-07:00",
   "2006-01-02T15:04:05"]

/-- The layout loop of `parseExifTime`: the first layout that parses wins. -/
def firstParse : List String → String → Option DateTime
  | [], _ => none
  | l :: ls, s =>
      match goTimeParse l s with
      | some t => some t
      | none => firstParse ls s

/-- Go `strings.HasPrefix` (on the character sequences). -/
def goHasPrefixStr (s pre : String) : Bool :=
  pre.data.isPrefixOf s.data

/-- Embeds `exifdate.parseExifTime` (exifdate.go:160-175): all-zero or all-blank
date strings (and strings shorter than 10 bytes) are the plain "date not
set" error; a string matching no layout is an `ErrUnsupported`-wrapped
"unknown date format" error. -/
def parseExifTime (s : String) : Except GoErr DateTime :=
  if s.length < 10 || goHasPrefixStr s "0000:00:00" || goHasPrefixStr s "    :  :  " then
    .error (plainErr "date not set")
  else
    match firstParse nativeLayouts s with
    | some t => .ok t
    | none => .error (unsupErr ("unknown date format " ++ s))

/-! ## `MetadataService.GetTime` (metadata.go:46-60)

The native extraction result (`exifdate.Get`) and the external ExifTool
fallback are inputs to the control flow being verified; `GetTime` consumes
only them and the file's modification time.  The returned `Bool` records
whether the external fallback capability was invoked. -/

/-- Embeds `MetadataService.GetTime`: on native success return the native time;
if the native error wraps `ErrUnsupported`, invoke the external fallback
and use its time when it reports one; in every remaining case return the
filesystem modification time. -/
def GetTime (native : Except GoErr DateTime) (fallback : Option DateTime)
    (modTime : DateTime) : DateTime × Bool :=
  match native with
  | .ok t => (t, false)
  | .error e =>
      if e.unsupported then
        match fallback with
        | some t => (t, true)
        | none => (modTime, true)
      else (modTime, false)

/-! ## A result type that records Go runtime panics

Unguarded Go slice expressions (`data[i:j]`) panic at runtime when the
bounds are violated.  To make "never panics" a provable statement, every
such expression is embedded through `goSlice`/`u16At`/`u32At`, which
return `.panicked` exactly when Go would panic.  Explicit bounds checks in
the source are embedded as the same explicit checks. -/

/-- Result of embedded Go code: success, a returned `error`, or a runtime
panic. -/
inductive PRes (α : Type) where
  | ok (a : α)
  | err (e : GoErr)
  | panicked
  deriving DecidableEq, Repr

instance : Monad PRes where
  pure := PRes.ok
  bind m f :=
    match m with
    | .ok a => f a
    | .err e => .err e
    | .panicked => .panicked

/-- Holds `true` unless the computation panicked. -/
def notPanicked : PRes α → Bool
  | .panicked => false
  | _ => true

/-- Go slice expression `data[i:j]` on a plain slice: panics when the
bounds are out of range, otherwise yields the designated bytes. -/
def goSlice (data : Bytes) (i j : Nat) : PRes Bytes :=
  if i ≤ j ∧ j ≤ data.length then .ok ((data.drop i).take (j - i)) else .panicked

/-- TIFF byte order, from the `II`/`MM` magic. -/
inductive ByteOrder where
  | little
  | big
  deriving DecidableEq, Repr

/-- Combine two bytes per the byte order (Go `order.Uint16`). -/
def u16 (bo : ByteOrder) (a b : Nat) : Nat :=
  match bo with
  | .big => a * 256 + b
  | .little => b * 256 + a

/-- Combine four bytes per the byte order (Go `order.Uint32`). -/
def u32 (bo : ByteOrder) (a b c d : Nat) : Nat :=
  match bo with
  | .big => ((a * 256 + b) * 256 + c) * 256 + d
  | .little => ((d * 256 + c) * 256 + b) * 256 + a

/-- Embeds `order.Uint16(data[i:i+2])` — an unguarded Go slice read. -/
def u16At (bo : ByteOrder) (data : Bytes) (i : Nat) : PRes Nat :=
  if i + 2 ≤ data.length then .ok (u16 bo (data.getD i 0) (data.getD (i + 1) 0))
  else .panicked

/-- Embeds `order.Uint32(data[i:i+4])` — an unguarded Go slice read. -/
def u32At (bo : ByteOrder) (data : Bytes) (i : Nat) : PRes Nat :=
  if i + 4 ≤ data.length then
    .ok (u32 bo (data.getD i 0) (data.getD (i + 1) 0) (data.getD (i + 2) 0)
          (data.getD (i + 3) 0))
  else .panicked

/-! ## TIFF/EXIF tag reader (`exifdate.ParseDate`, exifdate.go:18-149) -/

/-- Trim a byte at the front/back if it is ASCII whitespace
(`bytes.TrimSpace`). -/
def isSpaceByte (b : Nat) : Bool :=
  b = 32 || b = 9 || b = 10 || b = 11 || b = 12 || b = 13

/-- Convert raw bytes to a string (Go `string(raw)` on ASCII data). -/
def bytesToString (raw : Bytes) : String :=
  String.mk (raw.map Char.ofNat)

/-- Embeds `exifdate.extractString` (exifdate.go:120-149): when the value does
not fit in the 4-byte value field, the value field holds an offset — read
with an *unguarded* slice expression; every later access is explicitly
bounds-checked and yields `""` out of range.  Cut at the first NUL, trim
whitespace. -/
def extractString (data : Bytes) (tagStartOffset : Nat) (count : Nat)
    (bo : ByteOrder) : PRes String := do
  let valueOffset := tagStartOffset + 8
  let strStart ← if count ≤ 4 then pure valueOffset else u32At bo data valueOffset
  if strStart + count > data.length then pure ""
  else
    let raw := (data.drop strStart).take count
    let raw := raw.takeWhile (fun b => b ≠ 0)
    let raw := (raw.dropWhile isSpaceByte).reverse.dropWhile isSpaceByte |>.reverse
    pure (bytesToString raw)

/-- The per-entry loop of `exifdate.iterateTags` (exifdate.go:103-115):
`n` entries remain, the next entry starts at `current`; each callback
receives `(tagID, absolute entry offset, value count)` and may panic.  An
out-of-bounds entry stops the walk with an error, keeping the state
accumulated so far (the Go callbacks mutate captured variables, so work
done before the error survives). -/
def iterateTagsLoop (data : Bytes) (bo : ByteOrder)
    (f : σ → Nat × Nat × Nat → PRes σ) :
    Nat → Nat → σ → PRes (σ × Option GoErr)
  | 0, _, s => .ok (s, none)
  | n + 1, current, s =>
      if current + 12 > data.length then .ok (s, some (plainErr "tag out of bounds"))
      else do
        let tag ← u16At bo data current
        let countVal ← u32At bo data (current + 4)
        let s' ← f s (tag, current, countVal)
        iterateTagsLoop data bo f n (current + 12) s'

/-- Embeds `exifdate.iterateTags` (exifdate.go:95-117). -/
def iterateTags (data : Bytes) (bo : ByteOrder) (dirOffset : Nat)
    (f : σ → Nat × Nat × Nat → PRes σ) (s : σ) : PRes (σ × Option GoErr) :=
  if dirOffset + 2 > data.length then .ok (s, some (plainErr "offset out of bounds"))
  else do
    let count ← u16At bo data dirOffset
    iterateTagsLoop data bo f count (dirOffset + 2) s

/-- Pass-1 callback of `ParseDate` over IFD0 (exifdate.go:51-64); the
state is `(exifOffset, fallbackDateStr)`. -/
def ifd0Step (data : Bytes) (bo : ByteOrder) (s : Nat × String)
    (t : Nat × Nat × Nat) : PRes (Nat × String) :=
  if t.1 = 0x8769 then
    if t.2.1 + 12 ≤ data.length then do
      let eo ← u32At bo data (t.2.1 + 8)
      pure (eo, s.2)
    else pure s
  else if t.1 = 0x0132 then do
    let str ← extractString data t.2.1 t.2.2 bo
    pure (s.1, str)
  else pure s

/-- Pass-2 callback of `ParseDate` over the Exif sub-IFD
(exifdate.go:72-76); the state is `originalDateStr`. -/
def exifStep (data : Bytes) (bo : ByteOrder) (s : String)
    (t : Nat × Nat × Nat) : PRes String :=
  if t.1 = 0x9003 then extractString data t.2.1 t.2.2 bo
  else pure s

/-- Pass 1 of `ParseDate`: scan IFD0 for the Exif sub-IFD pointer
(tag `0x8769`) and the fallback DateTime string (tag `0x0132`). -/
def scanIFD0 (data : Bytes) (bo : ByteOrder) (ifdOffset : Nat) :
    PRes ((Nat × String) × Option GoErr) :=
  iterateTags data bo ifdOffset (ifd0Step data bo) (0, "")

/-- Pass 2 of `ParseDate`: scan the Exif sub-IFD for tag `0x9003`
(DateTimeOriginal). -/
def scanExifIFD (data : Bytes) (bo : ByteOrder) (exifOffset : Nat) :
    PRes (String × Option GoErr) :=
  iterateTags data bo exifOffset (exifStep data bo) ""

/-- Lift an `Except` (code that cannot panic) into `PRes`. -/
def liftExcept : Except GoErr α → PRes α
  | .ok a => .ok a
  | .error e => .err e

/-- Detect the TIFF byte order from the first two bytes
(exifdate.go:26-33); the accesses are guarded by the caller's length
check. -/
def byteOrderOf (data : Bytes) : Option ByteOrder :=
  if data.getD 0 0 = 73 ∧ data.getD 1 0 = 73 then some .little
  else if data.getD 0 0 = 77 ∧ data.getD 1 0 = 77 then some .big
  else none

/-- Embeds `exifdate.ParseDate` (exifdate.go:18-90): validate the TIFF header,
scan IFD0 (remembering a sub-IFD pointer and a fallback DateTime string),
scan the sub-IFD for DateTimeOriginal if pointed to (ignoring its scan
error), and parse the preferred string. -/
def ParseDate (data : Bytes) : PRes DateTime :=
  if data.length < 8 then .err (unsupErr "data too short")
  else
    match byteOrderOf data with
    | none => .err (unsupErr "invalid tiff header")
    | some bo => do
        let magic ← u16At bo data 2
        if magic ≠ 42 then .err (unsupErr "invalid magic number")
        else do
          let ifdOffset ← u32At bo data 4
          let r ← scanIFD0 data bo ifdOffset
          match r.2 with
          | some _ => .err (unsupErr "tiff structure corruption")
          | none =>
            let exifOffset := r.1.1
            let fallbackDateStr := r.1.2
            let fallbackTail : PRes DateTime :=
              if fallbackDateStr ≠ "" then liftExcept (parseExifTime fallbackDateStr)
              else .err (plainErr "no date tag found")
            if exifOffset > 0 then do
              let r2 ← scanExifIFD data bo exifOffset
              if r2.1 ≠ "" then liftExcept (parseExifTime r2.1)
              else fallbackTail
            else fallbackTail

/-! ## HEIC Exif wrapper stripping (`exifdate.stripExifWrapper`,
heic.go:489-532) -/

/-- Whether a TIFF magic (`II*\0` or `MM\0*`) sits at index `i`
(`exifdate.findTIFF`'s match condition; all four accesses are guarded by
the loop bound). -/
def isTIFFAt (data : Bytes) (i : Nat) : Bool :=
  (data.getD i 0 = 73 && data.getD (i + 1) 0 = 73 && data.getD (i + 2) 0 = 42
    && data.getD (i + 3) 0 = 0) ||
  (data.getD i 0 = 77 && data.getD (i + 1) 0 = 77 && data.getD (i + 2) 0 = 0
    && data.getD (i + 3) 0 = 42)

/-- The scan loop of `exifdate.findTIFF` (`i` runs while `i < stop`). -/
def findTIFFLoop (data : Bytes) (stop : Nat) : Nat → Nat → Option Nat
  | 0, _ => none
  | fuel + 1, i =>
      if i < stop then
        if isTIFFAt data i then some i else findTIFFLoop data stop fuel (i + 1)
      else none

/-- Embeds `exifdate.findTIFF` (heic.go:523-532): scan the first 512 bytes for a
raw TIFF magic; `none` models Go's `-1`.  (Go's `limit-4` is `int`
arithmetic, so a negative bound runs zero iterations — as the truncated
`Nat` subtraction does here.) -/
def findTIFF (data : Bytes) : Option Nat :=
  let limit := min data.length 512
  findTIFFLoop data (limit - 4) limit 0

/-- Embeds `exifdate.stripExifWrapper` (heic.go:489-513): strict wrapper parse
(4-byte offset, then the 6-byte `Exif\0\0` signature), falling back to a
scan for a raw TIFF magic; `none` models Go's `nil` result. -/
def stripExifWrapper (data : Bytes) : PRes (Option Bytes) := do
  let strict ←
    (if data.length ≥ 4 then do
      let four ← goSlice data 0 4
      let offsetToExif :=
        ((four.getD 0 0 * 256 + four.getD 1 0) * 256 + four.getD 2 0) * 256 + four.getD 3 0
      let startOfExifSig := 4 + offsetToExif
      if startOfExifSig + 6 ≤ data.length then do
        let signature ← goSlice data startOfExifSig (startOfExifSig + 6)
        if signature = [69, 120, 105, 102, 0, 0] then do
          let rest ← goSlice data (startOfExifSig + 6) data.length
          pure (some rest)
        else pure (none : Option Bytes)
      else pure none
    else pure none)
  match strict with
  | some tiff => pure (some tiff)
  | none =>
    match findTIFF data with
    | some idx => pure (some (data.drop idx))
    | none => pure none

/-! ## Container sniffing (`exifdate.ExtractEXIF` prologue,
extract.go:30-58) -/

/-- The container kinds the sniffer distinguishes. -/
inductive Container where
  | jpeg
  | heic
  | png
  | unsupported
  deriving DecidableEq, Repr

/-- Embeds `exifdate.isHEIC` (extract.go:52-58): the `sig[4:8]`/`sig[8:12]`
slice expressions are unguarded Go slices over the 12-byte sniff
buffer. -/
def isHEICsig (sniff : Bytes) : PRes Bool := do
  let four ← goSlice sniff 4 8
  if four ≠ [102, 116, 121, 112] then pure false
  else do
    let brand ← goSlice sniff 8 12
    pure (brand = [104, 101, 105, 99] ∨ brand = [104, 101, 105, 120]
      ∨ brand = [109, 105, 102, 49] ∨ brand = [109, 115, 102, 49])

/-- The sniffing prologue of `exifdate.ExtractEXIF` (extract.go:30-49):
read 12 bytes (an `io.ReadFull` failure is the corresponding error) and
classify the container; an unrecognized prefix is `ErrUnsupported`. -/
def sniffContainer (data : Bytes) : PRes Container :=
  if data.length < 12 then
    .err (if data.length = 0 then eofErr else unexpectedEofErr)
  else
    let sniff := data.take 12
    if sniff.getD 0 0 = 255 ∧ sniff.getD 1 0 = 216 then pure .jpeg
    else do
      let heic ← isHEICsig sniff
      if heic then pure .heic
      else if sniff.getD 0 0 = 137 ∧ sniff.getD 1 0 = 80 ∧ sniff.getD 2 0 = 78
          ∧ sniff.getD 3 0 = 71 then pure .png
      else .err (unsupErr "unsupported format")

/-! ## Identity & transfer pipeline (import.go)

The filesystem is modelled as an association list from paths to byte
contents; `World` adds the directory-creation effects and the statistics
counters.  The SHA-256 digest is abstracted as a parameter `hashFn`
applied to full file contents (the code and the specification refer to
the same digest function, so every claim is relative to it). -/

/-- Model of the on-disk filesystem: path ↦ file contents. -/
abbrev FS := List (String × Bytes)

/-- Look up a file's contents (`os.Open`/`os.Stat` success). -/
def lookupFile : FS → String → Option Bytes
  | [], _ => none
  | (k, v) :: rest, p => if k = p then some v else lookupFile rest p

/-- Remove every binding of a path (`os.Remove`'s effect). -/
def eraseFile : FS → String → FS
  | [], _ => []
  | (k, v) :: rest, p =>
      if k = p then eraseFile rest p else (k, v) :: eraseFile rest p

/-- Create or truncate-and-write a file (`os.Create` + `io.Copy`). -/
def setFile (fs : FS) (p : String) (c : Bytes) : FS :=
  (p, c) :: eraseFile fs p

/-- The process-wide statistics counters (stats.go). -/
structure Stats where
  scanned : Nat
  processed : Nat
  duplicates : Nat
  errors : Nat
  bytesMoved : Nat
  deriving DecidableEq, Repr

/-- Mutable world state of one import step: files on disk, the list of
destinations for which `os.MkdirAll(filepath.Dir(dest))` was invoked
(directory-creation effects, recorded without embedding Go's path
cleaning), and the statistics counters. -/
structure World where
  files : FS
  mkdirs : List String
  stats : Stats
  deriving DecidableEq, Repr

/-- The already-parsed configuration consumed by the import pipeline
(main.go `Config` fields used by import.go). -/
structure Config where
  move : Bool
  dryRun : Bool
  deepCheck : Bool
  conflict : String
  deriving DecidableEq, Repr

/-- A queued import job (main.go `FileJob`): source path, size, the first
min(64 KiB, size) bytes, and the 64-bit fingerprint. -/
structure FileJob where
  path : String
  size : Nat
  sourceHead : Bytes
  hash : Nat
  deriving DecidableEq, Repr

/-- Embeds `computeFullHash` (import.go:300-313): open the file and digest its
entire contents; failure to open is an error. -/
def computeFullHash (hashFn : Bytes → Nat) (fs : FS) (path : String) :
    Except GoErr Nat :=
  match lookupFile fs path with
  | none => .error (plainErr "open failed")
  | some c => .ok (hashFn c)

/-- Embeds `areFilesDeepIdentical` (import.go:268-280). -/
def areFilesDeepIdentical (hashFn : Bytes → Nat) (fs : FS) (src dst : String) :
    Except GoErr Bool := do
  let h1 ← computeFullHash hashFn fs src
  let h2 ← computeFullHash hashFn fs dst
  pure (h1 == h2)

/-- Embeds `areHeadersIdentical` (import.go:246-266): read `len(sourceHead)`
bytes of the destination (`io.ReadFull` yields `min` of that and the file
size) and compare byte-for-byte. -/
def areHeadersIdentical (fs : FS) (destPath : String) (sourceHead : Bytes) : Bool :=
  match lookupFile fs destPath with
  | none => false
  | some dst =>
      let n := min dst.length sourceHead.length
      if n ≠ sourceHead.length then false
      else dst.take sourceHead.length == sourceHead

/-- Embeds `isFileIdentical` (import.go:170-190): size, then header, then — in
move mode or under the deep-check flag — the full digest; a digest error
yields `false` (the Go code discards the error and returns the `false`
match value). -/
def isFileIdentical (cfg : Config) (hashFn : Bytes → Nat) (fs : FS)
    (job : FileJob) (existingPath : String) : Bool :=
  match lookupFile fs existingPath with
  | none => false
  | some dst =>
      if dst.length ≠ job.size then false
      else if ¬ areHeadersIdentical fs existingPath job.sourceHead then false
      else if cfg.deepCheck || cfg.move then
        match areFilesDeepIdentical hashFn fs job.path existingPath with
        | .ok b => b
        | .error _ => false
      else true

/-- Increment the duplicate counter (`stats.IncDuplicate`). -/
def incDuplicate (w : World) : World :=
  { w with stats := { w.stats with duplicates := w.stats.duplicates + 1 } }

/-- Embeds `handleDuplicate` (import.go:192-209): count the duplicate; in a dry
run stop there; in move mode delete the source (a failed delete is only
logged). -/
def handleDuplicate (cfg : Config) (w : World) (job : FileJob) : World :=
  let w := incDuplicate w
  if cfg.dryRun then w
  else if cfg.move then
    match lookupFile w.files job.path with
    | none => w
    | some _ => { w with files := eraseFile w.files job.path }
  else w

/-- Embeds `copyFile` (import.go:329-344): open the source (failure aborts
before the destination is touched), then create/truncate the destination
with the source's contents. -/
def copyFile (fs : FS) (src dst : String) : Except GoErr FS :=
  match lookupFile fs src with
  | none => .error (plainErr "open src failed")
  | some c => .ok (setFile fs dst c)

/-- Embeds `os.Rename`: atomic move, replacing the destination; fails when the
source does not exist (cross-volume failure is not modelled — the model
has a single volume). -/
def osRename (fs : FS) (src dst : String) : Except GoErr FS :=
  match lookupFile fs src with
  | none => .error (plainErr "rename failed")
  | some c => .ok (setFile (eraseFile fs src) dst c)

/-- Embeds `performTransfer` (import.go:211-243): a dry run returns before any
mutation; otherwise ensure the destination directory, rename (move) or
copy, falling back to copy-then-delete when the rename fails, and update
the counters. -/
def performTransfer (cfg : Config) (w : World) (job : FileJob)
    (destPath : String) : World :=
  if cfg.dryRun then w
  else
    let w := { w with mkdirs := destPath :: w.mkdirs }
    let res : Except GoErr FS :=
      if cfg.move then
        match osRename w.files job.path destPath with
        | .ok fs' => .ok fs'
        | .error _ =>
            match copyFile w.files job.path destPath with
            | .ok fs' => .ok (eraseFile fs' job.path)
            | .error e => .error e
      else copyFile w.files job.path destPath
    match res with
    | .ok fs' =>
        { w with files := fs',
                 stats := { w.stats with
                              processed := w.stats.processed + 1,
                              bytesMoved := w.stats.bytesMoved + job.size } }
    | .error _ =>
        { w with stats := { w.stats with errors := w.stats.errors + 1 } }

/-! ## Conflict resolution (`importOne`, import.go:112-168)

Go string formatting used by the rename branch.  Note that the counter
path is built with `fmt.Sprintf("%s_%s_%d%s", base, job.Hash, n, ext)`
where `job.Hash` is a `uint64`: Go's `%s` verb applied to a `uint64`
yields the bad-verb text `%!s(uint64=<decimal>)`, not hexadecimal. -/

/-- Embeds `filepath.Ext`: the suffix starting at the final dot of the last
path element; `""` when there is none. -/
def goExtCore : List Char → List Char → List Char
  | [], _ => []
  | c :: rest, tail =>
      if c = '/' then []
      else if c = '.' then c :: tail
      else goExtCore rest (c :: tail)

/-- Embeds `filepath.Ext` on strings. -/
def goExt (path : String) : String :=
  String.mk (goExtCore path.data.reverse [])

/-- Embeds `strings.TrimSuffix`. -/
def goTrimSuffix (s suf : String) : String :=
  if suf.data.isSuffixOf s.data then
    String.mk (s.data.take (s.data.length - suf.data.length))
  else s

/-- One lowercase hexadecimal digit. -/
def hexDigit (d : Nat) : Char :=
  if d < 10 then Char.ofNat (48 + d) else Char.ofNat (87 + d)

/-- Go `fmt.Sprintf("%016x", h)` for a `uint64`: sixteen zero-padded
lowercase hex digits. -/
def goHex16 (h : Nat) : String :=
  String.mk ((List.range 16).map fun i => hexDigit (h / 16 ^ (15 - i) % 16))

/-- Go `fmt.Sprintf("%s", h)` for a `uint64` value `h`: the `%s` verb has
no meaning for integers, so Go emits its bad-verb notice. -/
def goSprintfSUint64 (h : Nat) : String :=
  "%!s(uint64=" ++ Nat.repr h ++ ")"

/-- The `n = 1, 2, 3, …` counter loop of `importOne` (import.go:153-161):
try `base ++ "_" ++ hashStr ++ "_" ++ n ++ ext` until a path that does not
exist is found.  The loop is embedded with a fuel bound; `fs.length + 1`
steps always suffice on the finite filesystem model. -/
def findCounterDest (occupied : String → Bool) (base hashStr ext : String) :
    Nat → Nat → Option String
  | 0, _ => none
  | fuel + 1, n =>
      let counterDest := base ++ "_" ++ hashStr ++ "_" ++ Nat.repr n ++ ext
      if occupied counterDest then
        findCounterDest occupied base hashStr ext fuel (n + 1)
      else some counterDest

/-- The conflict-resolution outcome of `importOne`. -/
inductive Decision where
  | duplicate
  | skipped
  | transfer (dest : String)
  deriving DecidableEq, Repr

/-- The conflict-resolution phase of `importOne` (import.go:112-164),
returning what the function then does: handle a duplicate, skip, or
transfer to the resolved destination.  `none` only when the counter
loop's fuel is exhausted (which cannot happen with the fuel used by
`importOne`). -/
def importOneDecide (cfg : Config) (hashFn : Bytes → Nat) (fs : FS)
    (job : FileJob) (originalDest : String) : Option Decision :=
  if (lookupFile fs originalDest).isSome then
    if isFileIdentical cfg hashFn fs job originalDest then some .duplicate
    else if cfg.conflict = "skip" then some .skipped
    else if cfg.conflict = "overwrite" then some (.transfer originalDest)
    else
      let ext := goExt originalDest
      let base := goTrimSuffix originalDest ext
      let hashedDest := base ++ "_" ++ goHex16 job.hash ++ ext
      if (lookupFile fs hashedDest).isNone then some (.transfer hashedDest)
      else if isFileIdentical cfg hashFn fs job hashedDest then some .duplicate
      else
        (findCounterDest (fun p => (lookupFile fs p).isSome) base
          (goSprintfSUint64 job.hash) ext (fs.length + 1) 1).map .transfer
  else some (.transfer originalDest)

/-- Embeds `importOne` (import.go:112-168): resolve the conflict, then act —
count (and in move mode delete) a duplicate, do nothing on skip, or
transfer to the resolved destination. -/
def importOne (cfg : Config) (hashFn : Bytes → Nat) (w : World)
    (job : FileJob) (originalDest : String) : Option World :=
  match importOneDecide cfg hashFn w.files job originalDest with
  | none => none
  | some .duplicate => some (handleDuplicate cfg w job)
  | some .skipped => some w
  | some (.transfer d) => some (performTransfer cfg w job d)

/-! ## JPEG marker scan (`exifdate.extractJPEG`, extract.go:60-139)

The buffered reader is modelled by the not-yet-consumed byte list; each
function returns the remaining stream alongside its result, so total
consumption is the drop in stream length. -/

/-- The `Exif\0\0` APP1 signature. -/
def exifSig : Bytes := [69, 120, 105, 102, 0, 0]

/-- The 0xFF-padding consumption loop (extract.go:80-90): read bytes,
incrementing `scanned` per byte, until a non-0xFF marker byte or EOF. -/
def readPadding : List Nat → Nat → Option (Nat × List Nat) × Nat
  | [], scanned => (none, scanned)
  | b :: rest, scanned =>
      if b = 255 then readPadding rest (scanned + 1)
      else (some (b, rest), scanned + 1)

/-- Result of the JPEG scan: an error, or optionally the raw TIFF blob. -/
abbrev JRes := Except GoErr (Option Bytes)

/-- The outer marker loop of `extractJPEG` (extract.go:67-136), returning
the result together with the unconsumed remainder of the stream.  The
loop is embedded with a fuel bound (each iteration consumes at least one
byte, so `stream.length + 1` always suffices). -/
def jpegLoop : Nat → List Nat → Nat → JRes × List Nat
  | 0, stream, _ => (.error (plainErr "fuel exhausted"), stream)
  | fuel + 1, stream, scanned =>
      if scanned < 1048576 then
        match stream with
        | [] => (.error eofErr, [])
        | b :: rest =>
          if b ≠ 255 then jpegLoop fuel rest (scanned + 1)
          else
            match readPadding rest (scanned + 1) with
            | (none, _) => (.error eofErr, [])
            | (some (marker, rest1), scanned1) =>
              if marker = 0xD8 then jpegLoop fuel rest1 scanned1
              else if marker = 0xD9 ∨ marker = 0xDA then (.ok none, rest1)
              else if marker = 1 ∨ (0xD0 ≤ marker ∧ marker ≤ 0xD7) then
                jpegLoop fuel rest1 scanned1
              else
                match rest1 with
                | [] => (.error eofErr, [])
                | [_] => (.error unexpectedEofErr, [])
                | l1 :: l2 :: rest2 =>
                  let length : Int := (l1 : Int) * 256 + (l2 : Int) - 2
                  let scanned2 := scanned1 + 2
                  if marker = 0xE1 ∧ length ≥ 6 ∧ rest2.take 6 = exifSig then
                    (if length.toNat ≤ rest2.length then
                      (.ok (some ((rest2.take length.toNat).drop 6)),
                        rest2.drop length.toNat)
                    else (.error unexpectedEofErr, []))
                  else if length > (1048576 : Int) - (scanned2 : Int) then
                    (.ok none, rest2)
                  else if length > 0 then
                    (if length.toNat ≤ rest2.length then
                      jpegLoop fuel (rest2.drop length.toNat) (scanned2 + length.toNat)
                    else (.error eofErr, []))
                  else jpegLoop fuel rest2 scanned2
      else (.ok none, stream)

/-- The `extractJPEG` run on a byte stream, also yielding the unconsumed
remainder. -/
def extractJPEGrun (stream : List Nat) : JRes × List Nat :=
  jpegLoop (stream.length + 1) stream 0

/-- Embeds `exifdate.extractJPEG` (extract.go:60-139). -/
def extractJPEG (stream : List Nat) : JRes :=
  (extractJPEGrun stream).1

/-! ## PNG chunk walk (`exifdate.extractPNG`, extract.go:142-187) -/

/-- The chunk loop of `extractPNG`: read an 8-byte header (clean EOF here
means "no EXIF"), return an `eXIf` chunk's payload (with the 10 MiB
guard), stop at `IEND`, otherwise skip payload + CRC. -/
def pngChunkLoop : Nat → List Nat → Except GoErr (Option Bytes)
  | 0, _ => .error (plainErr "fuel exhausted")
  | fuel + 1, stream =>
      if stream.length = 0 then .ok none
      else if stream.length < 8 then .error unexpectedEofErr
      else
        let hdr := stream.take 8
        let len4 := ((hdr.getD 0 0 * 256 + hdr.getD 1 0) * 256 + hdr.getD 2 0) * 256
          + hdr.getD 3 0
        let ctype := hdr.drop 4
        let rest := stream.drop 8
        if ctype = [101, 88, 73, 102] then
          if len4 > 10 * 1024 * 1024 then .error (plainErr "exif data too large")
          else if rest.length < len4 then
            .error (if rest.length = 0 then eofErr else unexpectedEofErr)
          else .ok (some (rest.take len4))
        else if ctype = [73, 69, 78, 68] then .ok none
        else if rest.length < len4 + 4 then .error eofErr
        else pngChunkLoop fuel (rest.drop (len4 + 4))

/-- Embeds `exifdate.extractPNG` (extract.go:142-187): skip the 8-byte PNG
signature, then walk chunks. -/
def extractPNG (stream : List Nat) : Except GoErr (Option Bytes) :=
  if stream.length < 8 then .error eofErr
  else pngChunkLoop (stream.length + 1) (stream.drop 8)

/-! ## HEIC item resolver (heic.go) -/

/-- Big-endian value of a byte list (`readUint`'s accumulation loop). -/
def beUN (b : Bytes) : Nat :=
  b.foldl (fun x v => x * 256 + v) 0

/-- Four-character box types used by the resolver. -/
def metaT : Bytes := [109, 101, 116, 97]

/-- The `iinf` box type. -/
def iinfT : Bytes := [105, 105, 110, 102]

/-- The `iloc` box type. -/
def ilocT : Bytes := [105, 108, 111, 99]

/-- The `idat` box type. -/
def idatT : Bytes := [105, 100, 97, 116]

/-- The `infe` box type. -/
def infeT : Bytes := [105, 110, 102, 101]

/-- The `Exif` item type. -/
def exifT : Bytes := [69, 120, 105, 102]

/-- The `^uint64(0)` sentinel, the top-level scan's end bound. -/
def UMAX : Nat := 2 ^ 64 - 1

/-- Embeds `io.ReadFull` of `n` bytes at an absolute offset of the seekable
file: zero bytes available is `io.EOF`, a short read is
`io.ErrUnexpectedEOF`. -/
def readAt (file : Bytes) (off n : Nat) : Except GoErr Bytes :=
  if off ≥ file.length ∧ n > 0 then .error eofErr
  else if off + n > file.length then .error unexpectedEofErr
  else .ok ((file.drop off).take n)

/-- A parsed box header (heic.go `boxHeader`). -/
structure BoxHeader where
  offset : Nat
  size : Nat
  typ : Bytes
  dataOffset : Nat
  dataSize : Nat
  deriving DecidableEq, Repr

/-- Embeds `readBoxHeader` (heic.go:103-143): 32-bit size with the `1` sentinel
for a 64-bit large size and the `0` sentinel for extends-to-EOF; a
declared size smaller than the header is a structural error. -/
def readBoxHeader (file : Bytes) (offset : Nat) : Except GoErr BoxHeader := do
  let buf ← readAt file offset 8
  let size32 := ((buf.getD 0 0 * 256 + buf.getD 1 0) * 256 + buf.getD 2 0) * 256
    + buf.getD 3 0
  let typ := buf.drop 4
  if size32 = 1 then do
    let large ← readAt file (offset + 8) 8
    let size := beUN large
    if size < 16 then .error (plainErr "box size smaller than header size")
    else .ok ⟨offset, size, typ, offset + 16, size - 16⟩
  else if size32 = 0 then
    let size := file.length - offset
    if size < 8 then .error (plainErr "box size smaller than header size")
    else .ok ⟨offset, size, typ, offset + 8, size - 8⟩
  else
    if size32 < 8 then .error (plainErr "box size smaller than header size")
    else .ok ⟨offset, size32, typ, offset + 8, size32 - 8⟩

/-- Embeds `scanBoxes` (heic.go:145-175) as a fold with early exit: fewer than 8
bytes to the end stops the walk, a clean `io.EOF` from the header read
stops the walk, other header errors propagate, a zero-size box stops the
walk.  The callbacks used by this program never return an error.  Fueled;
`file.length + 1` steps always suffice (each step advances by ≥ 8
bytes). -/
def scanBoxesFold (file : Bytes) (endPos : Nat) (cb : σ → BoxHeader → σ × Bool) :
    Nat → Nat → σ → Except GoErr σ
  | 0, _, _ => .error (plainErr "fuel exhausted")
  | fuel + 1, pos, s =>
      if pos < endPos then
        if endPos - pos < 8 then .ok s
        else
          match readBoxHeader file pos with
          | .error e => if e.eofFlag then .ok s else .error e
          | .ok bh =>
              if bh.size = 0 then .ok s
              else
                let r := cb s bh
                if r.2 then .ok r.1
                else scanBoxesFold file endPos cb fuel (pos + bh.size) r.1
      else .ok s

/-- Embeds `findBox` (heic.go:177-195). -/
def findBox (file : Bytes) (start endPos : Nat) (target : Bytes) :
    Except GoErr BoxHeader := do
  let r ← scanBoxesFold file endPos
    (fun s bh => if bh.typ = target then (some bh, true) else (s, false))
    (file.length + 1) start none
  match r with
  | some bh => .ok bh
  | none => .error (plainErr "box not found")

/-- The `infe` callback of `parseInfeForExif` (heic.go:231-270).  The
16-byte scratch buffer is reused across boxes, and a version-3 entry with
`dataSize` 12–13 reads its item type partly from bytes 12–15 of the
scratch — legal in Go (the slice expression stays within the buffer's
capacity) but those bytes are stale; the model threads the scratch to
reproduce this. -/
def infeStep (file : Bytes) (s : List Nat × Bytes) (bh : BoxHeader) :
    (List Nat × Bytes) × Bool :=
  if bh.typ ≠ infeT then (s, false)
  else if bh.dataSize < 12 then (s, false)
  else
    let k := min bh.dataSize 16
    match readAt file bh.dataOffset k with
    | .error _ => (s, false)
    | .ok bytes =>
        let scratch := bytes ++ s.2.drop k
        let ver := scratch.getD 0 0
        if ver = 2 then
          let itemID := scratch.getD 4 0 * 256 + scratch.getD 5 0
          let itemType := (scratch.drop 8).take 4
          ((if itemType = exifT then s.1 ++ [itemID] else s.1, scratch), false)
        else if ver = 3 then
          let itemID := beUN ((scratch.drop 4).take 4)
          let itemType := (scratch.drop 10).take 4
          ((if itemType = exifT then s.1 ++ [itemID] else s.1, scratch), false)
        else (s, false)

/-- Embeds `parseInfeForExif` (heic.go:199-273): read the `iinf` full-box
version (which sets the width of the entry-count field), then scan the
child `infe` boxes collecting the item IDs whose type is `Exif`, in scan
order. -/
def parseInfeForExif (file : Bytes) (iinf : BoxHeader) : Except GoErr (List Nat) :=
  if iinf.dataSize < 4 then .error (plainErr "iinf too small")
  else do
    let vf ← readAt file iinf.dataOffset 4
    let version := vf.getD 0 0
    let offsetWithin := 4 + (if version = 0 then 2 else 4)
    let startScan := iinf.dataOffset + offsetWithin
    let endScan := iinf.dataOffset + iinf.dataSize
    let r ← scanBoxesFold file endScan (infeStep file) (file.length + 1) startScan
      ([], List.replicate 16 0)
    pure r.1

/-- One extent of an item location. -/
structure Extent where
  offset : Nat
  length : Nat
  deriving DecidableEq, Repr

/-- An item location entry retained for the target item. -/
structure ItemLocation where
  constructionMethod : Nat
  baseOffset : Nat
  extents : List Extent
  deriving DecidableEq, Repr

/-- Embeds `readBytes` of `parseIloc` (heic.go:295-307) on the sequential
cursor: at most 8 bytes (the scratch bound), `io.ReadFull` semantics. -/
def takeBytes (cur : Bytes) (n : Nat) : Except GoErr (Bytes × Bytes) :=
  if n > 8 then .error (plainErr "field size too large")
  else if cur.length < n then
    .error (if cur.length = 0 then eofErr else unexpectedEofErr)
  else .ok (cur.take n, cur.drop n)

/-- The per-extent loop of `parseIloc` (heic.go:417-439): skip the index
field when present, read offset and length, retain the extent only for
the target item. -/
def ilocExtentLoop (version indexSize offsetSize lengthSize : Nat) (isTarget : Bool) :
    Nat → Bytes → List Extent → Except GoErr (List Extent × Bytes)
  | 0, cur, acc => .ok (acc, cur)
  | e + 1, cur, acc => do
      let cur1 ←
        (if version ≥ 1 ∧ indexSize > 0 then do
          let p ← takeBytes cur indexSize
          pure p.2
        else pure cur)
      let p1 ← takeBytes cur1 offsetSize
      let p2 ← takeBytes p1.2 lengthSize
      ilocExtentLoop version indexSize offsetSize lengthSize isTarget e p2.2
        (if isTarget then acc ++ [⟨beUN p1.1, beUN p2.1⟩] else acc)

/-- The per-item loop of `parseIloc` (heic.go:367-448): item ID (2 or 4
bytes), construction method for versions 1–2 (low nibble), data-reference
index, base offset, extent count, then the extents. -/
def ilocItemLoop (targetID version offsetSize lengthSize baseOffsetSize indexSize : Nat) :
    Nat → Bytes → List ItemLocation → Except GoErr (List ItemLocation)
  | 0, _, locs => .ok locs
  | i + 1, cur, locs => do
      let pID ← (if version < 2 then takeBytes cur 2 else takeBytes cur 4)
      let itemID := beUN pID.1
      let pCM ←
        (if version = 1 ∨ version = 2 then do
          let p ← takeBytes pID.2 2
          pure (beUN p.1 % 16, p.2)
        else pure (0, pID.2))
      let pRef ← takeBytes pCM.2 2
      let pBase ← takeBytes pRef.2 baseOffsetSize
      let pCnt ← takeBytes pBase.2 2
      let isTarget := itemID = targetID
      let pExt ← ilocExtentLoop version indexSize offsetSize lengthSize isTarget
        (beUN pCnt.1) pCnt.2 []
      ilocItemLoop targetID version offsetSize lengthSize baseOffsetSize indexSize i pExt.2
        (if isTarget then locs ++ [⟨pCM.1, beUN pBase.1, pExt.1⟩] else locs)

/-- Embeds `parseIloc` (heic.go:286-451): full-box version, the field-width
nibbles, the item count (2 or 4 bytes by version), then the items.  The
reads are sequential from the box's data offset and are not bounded by
the box's declared size (as in the source). -/
def parseIloc (file : Bytes) (offset size targetID : Nat) :
    Except GoErr (List ItemLocation) := do
  let cur := file.drop offset
  let pVF ← takeBytes cur 4
  let version := pVF.1.getD 0 0
  let pSz ← takeBytes pVF.2 2
  let b0 := pSz.1.getD 0 0
  let b1 := pSz.1.getD 1 0
  let offsetSize := b0 / 16
  let lengthSize := b0 % 16
  let baseOffsetSize := b1 / 16
  let indexSize := if version ≥ 1 then b1 % 16 else 0
  let pCnt ← (if version < 2 then takeBytes pSz.2 2 else takeBytes pSz.2 4)
  ilocItemLoop targetID version offsetSize lengthSize baseOffsetSize indexSize
    (beUN pCnt.1) pCnt.2 []

/-- One extent of `readItemData`'s inner loop (heic.go:457-484): resolve
the final offset by construction method — an idat-relative extent with no
located `idat` box is the `ErrUnsupported` hard failure, checked *before*
the zero-length skip — then seek and copy.  `none` is a skipped
zero-length extent.  A final offset whose `int64` reinterpretation is
negative fails the seek; copying past end-of-file is `io.EOF`. -/
def readOneExtent (file : Bytes) (idatOffset : Nat) (loc : ItemLocation)
    (e : Extent) : Except GoErr (Option Bytes) := do
  let finalOffset ←
    (if loc.constructionMethod = 1 then
      if idatOffset = 0 then
        .error (unsupErr "item uses idat-relative offset but idat box not found")
      else .ok ((idatOffset + loc.baseOffset + e.offset) % 2 ^ 64)
    else .ok ((loc.baseOffset + e.offset) % 2 ^ 64))
  if e.length = 0 then .ok none
  else if finalOffset ≥ 2 ^ 63 then .error (plainErr "seek negative position")
  else if finalOffset + e.length > file.length then .error eofErr
  else .ok (some ((file.drop finalOffset).take e.length))

/-- The extent loop of `readItemData` for one location, concatenating in
extent order. -/
def readItemExtents (file : Bytes) (idatOffset : Nat) (loc : ItemLocation) :
    List Extent → Except GoErr Bytes
  | [] => .ok []
  | e :: rest => do
      let r ← readOneExtent file idatOffset loc e
      let tail ← readItemExtents file idatOffset loc rest
      pure (r.getD [] ++ tail)

/-- Embeds `readItemData` (heic.go:453-487). -/
def readItemData (file : Bytes) (locs : List ItemLocation) (idatOffset : Nat) :
    Except GoErr Bytes :=
  match locs with
  | [] => .ok []
  | loc :: rest => do
      let a ← readItemExtents file idatOffset loc loc.extents
      let b ← readItemData file rest idatOffset
      pure (a ++ b)

/-- Steps 4–6 of `ExtractExifFromHEIC` (heic.go:39-85) for a given target
item ID: locate and parse `iloc`, retain the target's locations, scan for
`idat` only when an extent is idat-relative (a scan error leaves the
offset 0, as the source discards it), and read the item data. -/
def heicResolveAndRead (file : Bytes) (metaChildrenOffset metaChildrenEnd targetID : Nat) :
    Except GoErr Bytes := do
  let iloc ←
    (match findBox file metaChildrenOffset metaChildrenEnd ilocT with
    | .ok b => .ok b
    | .error e => .error (plainErr ("iloc box not found: " ++ e.msg)))
  let locs ←
    (match parseIloc file iloc.dataOffset iloc.dataSize targetID with
    | .ok l => .ok l
    | .error e => .error (unsupErr ("failed to parse iloc: " ++ e.msg)))
  if locs = [] then .error (unsupErr "exif item location definition not found")
  else
    let needsIdat := locs.any (fun l => l.constructionMethod = 1)
    let idatOffset :=
      if needsIdat then
        match scanBoxesFold file UMAX
            (fun s bh => if bh.typ = idatT then (bh.dataOffset, true) else (s, false))
            (file.length + 1) 0 0 with
        | .ok v => v
        | .error _ => 0
      else 0
    readItemData file locs idatOffset

/-- Embeds `ExtractExifFromHEIC` (heic.go:12-89): locate `meta` and `iinf`,
collect the Exif item IDs from the `infe` entries, resolve and read the
payload of the *first* collected ID, and strip the Exif wrapper. -/
def ExtractExifFromHEIC (file : Bytes) : PRes (Option Bytes) := do
  let meta ← liftExcept
    (match findBox file 0 UMAX metaT with
    | .ok b => .ok b
    | .error e => .error (plainErr ("meta box not found: " ++ e.msg)))
  let metaChildrenOffset := meta.dataOffset + 4
  let metaChildrenEnd := meta.dataOffset + meta.dataSize
  let iinf ← liftExcept
    (match findBox file metaChildrenOffset metaChildrenEnd iinfT with
    | .ok b => .ok b
    | .error e => .error (plainErr ("iinf box not found: " ++ e.msg)))
  let exifItemIDs ← liftExcept
    (match parseInfeForExif file iinf with
    | .ok l => .ok l
    | .error e => .error (unsupErr ("failed to parse infe: " ++ e.msg)))
  match exifItemIDs with
  | [] => .err (unsupErr "no supported Exif item info found")
  | targetID :: _ => do
      let itemData ← liftExcept
        (heicResolveAndRead file metaChildrenOffset metaChildrenEnd targetID)
      stripExifWrapper itemData

/-- The base address of a location's extents per the specification's
words: the base offset, plus the `idat` data start when the construction
method is idat-relative. -/
def resolvedBase (idatOffset : Nat) (loc : ItemLocation) : Nat :=
  if loc.constructionMethod = 1 then idatOffset + loc.baseOffset else loc.baseOffset

/-- The item payload as the specification describes it: the concatenation,
in extent order, of the bytes at `resolvedBase + extentOffset`, each
extent contributing its `length` bytes (a zero-length extent contributes
nothing). -/
def specItemPayload (file : Bytes) (locs : List ItemLocation) (idatOffset : Nat) : Bytes :=
  locs.flatMap fun loc => loc.extents.flatMap fun e =>
    (file.drop (resolvedBase idatOffset loc + e.offset)).take e.length

/-! # Theorems -/

/-! ## Basic lemmas about the embedded monads and filesystem model -/

theorem PRes.bind_ok (a : α) (f : α → PRes β) : (PRes.ok a >>= f) = f a := rfl

theorem PRes.bind_err (e : GoErr) (f : α → PRes β) :
    ((PRes.err e : PRes α) >>= f) = PRes.err e := rfl

theorem PRes.bind_panicked (f : α → PRes β) :
    ((PRes.panicked : PRes α) >>= f) = PRes.panicked := rfl

theorem PRes.pure_bind (a : α) (f : α → PRes β) :
    ((pure a : PRes α) >>= f) = f a := rfl

theorem lookupFile_eraseFile (fs : FS) (p q : String) :
    lookupFile (eraseFile fs p) q = if q = p then none else lookupFile fs q := by
  induction fs with
  | nil => simp [eraseFile, lookupFile]
  | cons kv rest ih =>
      obtain ⟨k, v⟩ := kv
      simp only [eraseFile, lookupFile]
      by_cases hkp : k = p
      · subst hkp
        rw [if_pos rfl, ih]
        by_cases hqk : q = k
        · simp [hqk]
        · have hkq : ¬ k = q := fun h => hqk h.symm
          simp [hqk, hkq]
      · rw [if_neg hkp]
        simp only [lookupFile]
        by_cases hkq : k = q
        · subst hkq
          simp [hkp]
        · rw [if_neg hkq, ih]
          simp [hkq]

/-! ## C1 -/

/-- C1: the claim states the counter-suffixed candidate is
`base(D) + "_" + hex(fingerprint) + "_" + n + ext(D)`.  The code
(import.go:155) formats the fingerprint with the `%s` verb, so for the
job with fingerprint `0xA1B2C3D4` whose destination `img.jpg` and whose
hash-suffixed path `img_00000000a1b2c3d4.jpg` are both occupied by
different content, the selected final destination is
`img_%!s(uint64=2712847316)_1.jpg` — not the hexadecimal
`img_00000000a1b2c3d4_1.jpg` the claim (and the code's own comment)
prescribe — and the transfer lands there. -/
theorem claim_C1_eval :
    importOneDecide ⟨false, false, false, "rename"⟩ (fun c => c.length)
        [("img.jpg", [1]), ("img_00000000a1b2c3d4.jpg", [2]), ("src/img.jpg", [9, 9, 9])]
        ⟨"src/img.jpg", 3, [9, 9, 9], 0xA1B2C3D4⟩ "img.jpg"
      = some (.transfer "img_%!s(uint64=2712847316)_1.jpg") ∧
    (importOne ⟨false, false, false, "rename"⟩ (fun c => c.length)
        ⟨[("img.jpg", [1]), ("img_00000000a1b2c3d4.jpg", [2]), ("src/img.jpg", [9, 9, 9])],
          [], ⟨0, 0, 0, 0, 0⟩⟩
        ⟨"src/img.jpg", 3, [9, 9, 9], 0xA1B2C3D4⟩ "img.jpg").map
      (fun w => lookupFile w.files "img_%!s(uint64=2712847316)_1.jpg")
      = some (some [9, 9, 9]) ∧
    ("img_%!s(uint64=2712847316)_1.jpg" == "img_00000000a1b2c3d4_1.jpg") = false := by
  exact ⟨by decide, by decide, by decide⟩

/-! ## C2 -/

/-- C2: `isFileIdentical` returns `true` iff the sizes are exactly equal,
the first min(64 KiB, size) bytes agree byte-for-byte, and — when the
transfer mode is move or the deep-check flag is set — the full digests of
source and destination also agree; without move/deep-check, size and
header agreement suffice.  (The short-circuit order — size, then header,
then digest — is the definitional structure of the embedded function.) -/
theorem claim_C2 (cfg : Config) (hashFn : Bytes → Nat) (fs : FS) (job : FileJob)
    (D : String) (src dst : Bytes)
    (hsrc : lookupFile fs job.path = some src)
    (hsize : job.size = src.length)
    (hhead : job.sourceHead = src.take (min 65536 src.length))
    (hdst : lookupFile fs D = some dst) :
    isFileIdentical cfg hashFn fs job D = true ↔
      (dst.length = src.length ∧
       dst.take (min 65536 src.length) = src.take (min 65536 src.length) ∧
       ((cfg.deepCheck || cfg.move) = true → hashFn src = hashFn dst)) := by
  obtain ⟨jp, jsz, jh, jhash⟩ := job
  simp only at hsrc hsize hhead
  subst hsize
  subst hhead
  unfold isFileIdentical
  rw [hdst]
  simp only
  have hk : min 65536 src.length ≤ src.length := Nat.min_le_right _ _
  have hklen : (src.take (min 65536 src.length)).length = min 65536 src.length := by
    rw [List.length_take]
    exact Nat.min_eq_left hk
  by_cases hlen : dst.length = src.length
  · rw [if_neg (by simp [hlen])]
    have hmin : min dst.length (min 65536 src.length) = min 65536 src.length := by
      rw [hlen]; exact Nat.min_eq_right hk
    have hhdr : areHeadersIdentical fs D (src.take (min 65536 src.length)) =
        (dst.take (min 65536 src.length) == src.take (min 65536 src.length)) := by
      unfold areHeadersIdentical
      rw [hdst]
      simp only [hklen, hmin]
      simp
    rw [hhdr]
    by_cases hh : dst.take (min 65536 src.length) = src.take (min 65536 src.length)
    · rw [if_neg (by simp [hh])]
      by_cases hdc : (cfg.deepCheck || cfg.move) = true
      · rw [if_pos hdc]
        have hdeep : areFilesDeepIdentical hashFn fs jp D =
            .ok (hashFn src == hashFn dst) := by
          unfold areFilesDeepIdentical computeFullHash
          rw [hsrc, hdst]
          rfl
        rw [hdeep]
        simp [hlen, hh, hdc, beq_iff_eq]
      · rw [if_neg hdc]
        simp only [Bool.not_eq_true] at hdc
        simp [hlen, hh, hdc]
    · rw [if_pos (by simp [hh])]
      simp [hh]
  · rw [if_pos hlen]
    simp [hlen]

/-- Witness for C2 at a concrete filesystem: source `s` and destination
`d` hold the same two bytes, copy mode without deep-check — identical. -/
theorem claim_C2_witness :
    isFileIdentical ⟨false, false, false, "rename"⟩ (fun c => c.length)
      [("s", [1, 2]), ("d", [1, 2])] ⟨"s", 2, [1, 2], 0⟩ "d" = true := by
  have h := claim_C2 ⟨false, false, false, "rename"⟩ (fun c => c.length)
    [("s", [1, 2]), ("d", [1, 2])] ⟨"s", 2, [1, 2], 0⟩ "d" [1, 2] [1, 2]
    (by decide) (by decide) (by decide) (by decide)
  exact h.mpr ⟨by decide, by decide, fun hc => by decide⟩

/-! ## C3 -/

/-- C3 counterexample: when the computed destination coincides with the
job's own source path (`a/x.jpg`), the duplicate branch in move mode
deletes the source — which *is* the destination — so `D`'s content is not
left unchanged as the claim states: after `importOne`, looking up
`a/x.jpg` yields nothing.  (The identity premise of the claim holds, as
the first conjunct shows.) -/
theorem claim_C3_counterexample :
    isFileIdentical ⟨true, false, false, "rename"⟩ (fun c => c.length)
        [("a/x.jpg", [1, 2, 3])] ⟨"a/x.jpg", 3, [1, 2, 3], 7⟩ "a/x.jpg" = true ∧
    (importOne ⟨true, false, false, "rename"⟩ (fun c => c.length)
        ⟨[("a/x.jpg", [1, 2, 3])], [], ⟨0, 0, 0, 0, 0⟩⟩
        ⟨"a/x.jpg", 3, [1, 2, 3], 7⟩ "a/x.jpg").map
      (fun w => lookupFile w.files "a/x.jpg") = some none := by
  exact ⟨by decide, by decide⟩

/-- C3 (amended): for a non-dry-run job whose destination `D` exists and
is identical, *and whose source path differs from `D`*: in move mode the
source is deleted, in copy mode the filesystem is untouched; in both
modes the duplicate counter is incremented exactly once, no other counter
changes, `D` keeps its content, no new path appears, and no directory is
created. -/
theorem claim_C3_amended (cfg : Config) (hashFn : Bytes → Nat) (w : World)
    (job : FileJob) (D : String) (c src : Bytes)
    (hdry : cfg.dryRun = false)
    (hD : lookupFile w.files D = some c)
    (hident : isFileIdentical cfg hashFn w.files job D = true)
    (hsrc : lookupFile w.files job.path = some src)
    (hne : job.path ≠ D) :
    ∃ w', importOne cfg hashFn w job D = some w' ∧
      w'.files = (if cfg.move then eraseFile w.files job.path else w.files) ∧
      lookupFile w'.files D = some c ∧
      (∀ pth, lookupFile w.files pth = none → lookupFile w'.files pth = none) ∧
      w'.stats.duplicates = w.stats.duplicates + 1 ∧
      w'.stats.processed = w.stats.processed ∧
      w'.stats.errors = w.stats.errors ∧
      w'.stats.scanned = w.stats.scanned ∧
      w'.stats.bytesMoved = w.stats.bytesMoved ∧
      w'.mkdirs = w.mkdirs := by
  have hstep : handleDuplicate cfg w job =
      { files := if cfg.move then eraseFile w.files job.path else w.files,
        mkdirs := w.mkdirs,
        stats := { w.stats with duplicates := w.stats.duplicates + 1 } } := by
    unfold handleDuplicate incDuplicate
    rw [hdry]
    cases hm : cfg.move <;> simp [hm, hsrc]
  refine ⟨handleDuplicate cfg w job, ?_, ?_, ?_, ?_, ?_, ?_, ?_, ?_, ?_, ?_⟩
  · simp [importOne, importOneDecide, hD, hident]
  · rw [hstep]
  · have hDn : ¬ D = job.path := fun h => hne h.symm
    rw [hstep]
    cases hm : cfg.move
    · simpa using hD
    · simp [lookupFile_eraseFile, hDn, hD]
  · intro pth hnone
    rw [hstep]
    cases hm : cfg.move
    · simpa using hnone
    · by_cases hpj : pth = job.path
      · simp [lookupFile_eraseFile, hpj]
      · simp [lookupFile_eraseFile, hpj, hnone]
  · rw [hstep]
  · rw [hstep]
  · rw [hstep]
  · rw [hstep]
  · rw [hstep]
  · rw [hstep]

/-- Witness for the amended C3: a concrete move-mode duplicate with the
destination distinct from the source. -/
theorem claim_C3_witness :
    ∃ w', importOne ⟨true, false, false, "rename"⟩ (fun c => c.length)
        ⟨[("d/y.jpg", [1, 2]), ("s/x.jpg", [1, 2])], [], ⟨0, 0, 0, 0, 0⟩⟩
        ⟨"s/x.jpg", 2, [1, 2], 5⟩ "d/y.jpg" = some w' ∧
      w'.files = (if (true : Bool) then
          eraseFile [("d/y.jpg", [1, 2]), ("s/x.jpg", [1, 2])] "s/x.jpg"
        else [("d/y.jpg", [1, 2]), ("s/x.jpg", [1, 2])]) ∧
      lookupFile w'.files "d/y.jpg" = some [1, 2] ∧
      (∀ pth, lookupFile [("d/y.jpg", [1, 2]), ("s/x.jpg", [1, 2])] pth = none →
        lookupFile w'.files pth = none) ∧
      w'.stats.duplicates = 0 + 1 ∧
      w'.stats.processed = 0 ∧
      w'.stats.errors = 0 ∧
      w'.stats.scanned = 0 ∧
      w'.stats.bytesMoved = 0 ∧
      w'.mkdirs = ([] : List String) :=
  claim_C3_amended ⟨true, false, false, "rename"⟩ (fun c => c.length)
    ⟨[("d/y.jpg", [1, 2]), ("s/x.jpg", [1, 2])], [], ⟨0, 0, 0, 0, 0⟩⟩
    ⟨"s/x.jpg", 2, [1, 2], 5⟩ "d/y.jpg" [1, 2] [1, 2]
    (by decide) (by decide) (by decide) (by decide) (by decide)

/-! ## C4 -/

/-- C4: with the dry-run flag set, no branch of `importOne` — duplicate
handling, skip, overwrite, rename, counter rename — mutates the
filesystem: the files and the directory-creation effects are exactly
those before the call, for every configuration, filesystem, job and
destination. -/
theorem claim_C4 (cfg : Config) (hashFn : Bytes → Nat) (w : World) (job : FileJob)
    (dest : String) (w' : World)
    (hdry : cfg.dryRun = true)
    (hrun : importOne cfg hashFn w job dest = some w') :
    w'.files = w.files ∧ w'.mkdirs = w.mkdirs := by
  unfold importOne at hrun
  cases hdec : importOneDecide cfg hashFn w.files job dest with
  | none => rw [hdec] at hrun; exact absurd hrun (by simp)
  | some d =>
      rw [hdec] at hrun
      cases d with
      | duplicate =>
          have hw : handleDuplicate cfg w job = w' := by
            simpa using hrun
          rw [← hw]
          simp [handleDuplicate, incDuplicate, hdry]
      | skipped =>
          have hw : w = w' := by simpa using hrun
          rw [← hw]
          exact ⟨rfl, rfl⟩
      | transfer dst' =>
          have hw : performTransfer cfg w job dst' = w' := by
            simpa using hrun
          rw [← hw]
          simp [performTransfer, hdry]

/-- Witness for C4: a concrete dry run through the duplicate branch
leaves files and directories untouched. -/
theorem claim_C4_witness :
    (importOne ⟨true, true, false, "rename"⟩ (fun c => c.length)
        ⟨[("a/x.jpg", [1, 2, 3])], [], ⟨0, 0, 0, 0, 0⟩⟩
        ⟨"a/x.jpg", 3, [1, 2, 3], 7⟩ "a/x.jpg"
      = some ⟨[("a/x.jpg", [1, 2, 3])], [], ⟨0, 0, 1, 0, 0⟩⟩) ∧
    ([("a/x.jpg", [1, 2, 3])] : FS) = [("a/x.jpg", [1, 2, 3])] ∧
    ([] : List String) = [] := by
  refine ⟨by decide, ?_, ?_⟩
  · exact (claim_C4 ⟨true, true, false, "rename"⟩ (fun c => c.length)
      ⟨[("a/x.jpg", [1, 2, 3])], [], ⟨0, 0, 0, 0, 0⟩⟩
      ⟨"a/x.jpg", 3, [1, 2, 3], 7⟩ "a/x.jpg"
      ⟨[("a/x.jpg", [1, 2, 3])], [], ⟨0, 0, 1, 0, 0⟩⟩ (by decide) (by decide)).1
  · exact (claim_C4 ⟨true, true, false, "rename"⟩ (fun c => c.length)
      ⟨[("a/x.jpg", [1, 2, 3])], [], ⟨0, 0, 0, 0, 0⟩⟩
      ⟨"a/x.jpg", 3, [1, 2, 3], 7⟩ "a/x.jpg"
      ⟨[("a/x.jpg", [1, 2, 3])], [], ⟨0, 0, 1, 0, 0⟩⟩ (by decide) (by decide)).2

/-! ## C5 -/

/-- C5: `GetTime` invokes the external fallback exactly when the native
result is an `ErrUnsupported`-wrapped error; any other failure — and a
failed fallback — resolves to the filesystem modification time, and a
native success is returned as-is (so the result is always populated).
The taxonomy conjuncts pin down which parse outcomes are unsupported:
all-zero and all-blank date strings are the plain "date not set" error
(never escalated), a string matching no layout is unsupported, and a
malformed TIFF header is unsupported. -/
theorem claim_C5 :
    (∀ (native : Except GoErr DateTime) fallback modTime,
        (GetTime native fallback modTime).2 = errUnsup native) ∧
    (∀ (e : GoErr) fallback modTime, e.unsupported = false →
        GetTime (.error e) fallback modTime = (modTime, false)) ∧
    (∀ (e : GoErr) modTime, e.unsupported = true →
        GetTime (.error e) none modTime = (modTime, true)) ∧
    (∀ (t : DateTime) fallback modTime, GetTime (.ok t) fallback modTime = (t, false)) ∧
    (∀ s, goHasPrefixStr s "0000:00:00" = true →
        parseExifTime s = .error (plainErr "date not set")) ∧
    (∀ s, goHasPrefixStr s "    :  :  " = true →
        parseExifTime s = .error (plainErr "date not set")) ∧
    (∀ s, ¬ s.length < 10 → goHasPrefixStr s "0000:00:00" = false →
        goHasPrefixStr s "    :  :  " = false →
        firstParse nativeLayouts s = none →
        errUnsup (parseExifTime s) = true) ∧
    (∀ data : Bytes, 8 ≤ data.length → byteOrderOf data = none →
        ParseDate data = .err (unsupErr "invalid tiff header")) := by
  refine ⟨?_, ?_, ?_, ?_, ?_, ?_, ?_, ?_⟩
  · intro native fb mt
    cases native with
    | ok t => rfl
    | error e =>
        cases he : e.unsupported
        · simp [GetTime, errUnsup, he]
        · cases fb <;> simp [GetTime, errUnsup, he]
  · intro e fb mt he
    simp [GetTime, he]
  · intro e mt he
    simp [GetTime, he]
  · intro t fb mt
    rfl
  · intro s hs
    simp [parseExifTime, hs]
  · intro s hs
    simp [parseExifTime, hs]
  · intro s h1 h2 h3 h4
    simp only [parseExifTime, h1, h2, h3, h4]
    simp [errUnsup, unsupErr]
  · intro data hlen hbo
    unfold ParseDate
    rw [if_neg (by omega), hbo]

/-- Witness for C5: concrete instances of each conjunct. -/
theorem claim_C5_witness :
    (GetTime (.error (unsupErr "x")) none ⟨2020, 1, 1, 0, 0, 0, 0⟩).2
      = errUnsup (.error (unsupErr "x") : Except GoErr DateTime) ∧
    GetTime (.error (plainErr "no exif data found")) (some ⟨2021, 1, 1, 0, 0, 0, 0⟩)
      ⟨2020, 1, 1, 0, 0, 0, 0⟩ = (⟨2020, 1, 1, 0, 0, 0, 0⟩, false) ∧
    GetTime (.error (unsupErr "y")) none ⟨2020, 1, 1, 0, 0, 0, 0⟩
      = (⟨2020, 1, 1, 0, 0, 0, 0⟩, true) ∧
    GetTime (.ok ⟨2023, 5, 10, 14, 22, 31, 0⟩) none ⟨2020, 1, 1, 0, 0, 0, 0⟩
      = (⟨2023, 5, 10, 14, 22, 31, 0⟩, false) ∧
    parseExifTime "0000:00:00 00:00:00" = .error (plainErr "date not set") ∧
    parseExifTime "    :  :  " = .error (plainErr "date not set") ∧
    errUnsup (parseExifTime "totally not a date!!") = true ∧
    ParseDate [0, 1, 2, 3, 4, 5, 6, 7] = .err (unsupErr "invalid tiff header") := by
  refine ⟨claim_C5.1 _ _ _, claim_C5.2.1 _ _ _ rfl, claim_C5.2.2.1 _ _ rfl,
    claim_C5.2.2.2.1 _ _ _, claim_C5.2.2.2.2.1 _ (by decide),
    claim_C5.2.2.2.2.2.1 _ (by decide),
    claim_C5.2.2.2.2.2.2.1 _ (by decide) (by decide) (by decide) (by decide),
    claim_C5.2.2.2.2.2.2.2 _ (by decide) (by decide)⟩

/-! ## C6 -/

theorem goSlice_ok {data : Bytes} {i j : Nat} (h1 : i ≤ j) (h2 : j ≤ data.length) :
    goSlice data i j = .ok ((data.drop i).take (j - i)) := by
  unfold goSlice
  rw [if_pos ⟨h1, h2⟩]

theorem u16At_ok (bo : ByteOrder) (data : Bytes) (i : Nat) (h : i + 2 ≤ data.length) :
    u16At bo data i = .ok (u16 bo (data.getD i 0) (data.getD (i + 1) 0)) := by
  unfold u16At
  rw [if_pos h]

theorem u32At_ok (bo : ByteOrder) (data : Bytes) (i : Nat) (h : i + 4 ≤ data.length) :
    u32At bo data i = .ok (u32 bo (data.getD i 0) (data.getD (i + 1) 0)
      (data.getD (i + 2) 0) (data.getD (i + 3) 0)) := by
  unfold u32At
  rw [if_pos h]

theorem notPanicked_bind {m : PRes α} {f : α → PRes β}
    (hm : notPanicked m = true) (hf : ∀ a, notPanicked (f a) = true) :
    notPanicked (m >>= f) = true := by
  cases m with
  | ok a => exact hf a
  | err e => rfl
  | panicked => exact absurd hm (by simp [notPanicked])

theorem liftExcept_notPanicked (x : Except GoErr α) :
    notPanicked (liftExcept x) = true := by
  cases x <;> rfl

theorem extractString_ok (data : Bytes) (bo : ByteOrder) (off cnt : Nat)
    (h : off + 12 ≤ data.length) : ∃ s, extractString data off cnt bo = .ok s := by
  unfold extractString
  by_cases hc : cnt ≤ 4
  · rw [if_pos hc, PRes.pure_bind]
    dsimp only
    by_cases h2 : off + 8 + cnt > data.length
    · rw [if_pos h2]; exact ⟨_, rfl⟩
    · rw [if_neg h2]; exact ⟨_, rfl⟩
  · rw [if_neg hc]
    rw [u32At_ok bo data (off + 8) (by omega), PRes.bind_ok]
    dsimp only
    by_cases h2 : u32 bo (data.getD (off + 8) 0) (data.getD (off + 8 + 1) 0)
        (data.getD (off + 8 + 2) 0) (data.getD (off + 8 + 3) 0) + cnt > data.length
    · rw [if_pos h2]; exact ⟨_, rfl⟩
    · rw [if_neg h2]; exact ⟨_, rfl⟩

theorem ifd0Step_ok (data : Bytes) (bo : ByteOrder) (s : Nat × String)
    (tag off cnt : Nat) (h : off + 12 ≤ data.length) :
    ∃ s', ifd0Step data bo s (tag, off, cnt) = .ok s' := by
  unfold ifd0Step
  dsimp only
  by_cases h1 : tag = 0x8769
  · rw [if_pos h1, if_pos h]
    rw [u32At_ok bo data (off + 8) (by omega), PRes.bind_ok]
    exact ⟨_, rfl⟩
  · rw [if_neg h1]
    by_cases h2 : tag = 0x0132
    · rw [if_pos h2]
      obtain ⟨str, hs⟩ := extractString_ok data bo off cnt h
      rw [hs, PRes.bind_ok]
      exact ⟨_, rfl⟩
    · rw [if_neg h2]; exact ⟨_, rfl⟩

theorem exifStep_ok (data : Bytes) (bo : ByteOrder) (s : String)
    (tag off cnt : Nat) (h : off + 12 ≤ data.length) :
    ∃ s', exifStep data bo s (tag, off, cnt) = .ok s' := by
  unfold exifStep
  dsimp only
  by_cases h1 : tag = 0x9003
  · rw [if_pos h1]
    exact extractString_ok data bo off cnt h
  · rw [if_neg h1]; exact ⟨_, rfl⟩

theorem iterateTagsLoop_ok {σ : Type} (data : Bytes) (bo : ByteOrder)
    (f : σ → Nat × Nat × Nat → PRes σ)
    (hf : ∀ s tag off cnt, off + 12 ≤ data.length → ∃ s', f s (tag, off, cnt) = .ok s') :
    ∀ n current s, ∃ r, iterateTagsLoop data bo f n current s = .ok r := by
  intro n
  induction n with
  | zero => intro current s; exact ⟨_, rfl⟩
  | succ m ih =>
      intro current s
      unfold iterateTagsLoop
      by_cases h : current + 12 > data.length
      · rw [if_pos h]; exact ⟨_, rfl⟩
      · rw [if_neg h]
        push_neg at h
        rw [u16At_ok bo data current (by omega), PRes.bind_ok]
        rw [u32At_ok bo data (current + 4) (by omega), PRes.bind_ok]
        obtain ⟨s', hs'⟩ := hf s _ current _ h
        rw [hs', PRes.bind_ok]
        exact ih (current + 12) s'

theorem iterateTags_ok {σ : Type} (data : Bytes) (bo : ByteOrder) (dirOffset : Nat)
    (f : σ → Nat × Nat × Nat → PRes σ) (s : σ)
    (hf : ∀ s tag off cnt, off + 12 ≤ data.length → ∃ s', f s (tag, off, cnt) = .ok s') :
    ∃ r, iterateTags data bo dirOffset f s = .ok r := by
  unfold iterateTags
  by_cases h : dirOffset + 2 > data.length
  · rw [if_pos h]; exact ⟨_, rfl⟩
  · rw [if_neg h]
    push_neg at h
    rw [u16At_ok bo data dirOffset (by omega), PRes.bind_ok]
    exact iterateTagsLoop_ok data bo f hf _ _ s

theorem scanIFD0_ok (data : Bytes) (bo : ByteOrder) (o : Nat) :
    ∃ r, scanIFD0 data bo o = .ok r :=
  iterateTags_ok data bo o (ifd0Step data bo) (0, "")
    (fun s tag off cnt h => ifd0Step_ok data bo s tag off cnt h)

theorem scanExifIFD_ok (data : Bytes) (bo : ByteOrder) (o : Nat) :
    ∃ r, scanExifIFD data bo o = .ok r :=
  iterateTags_ok data bo o (exifStep data bo) ""
    (fun s tag off cnt h => exifStep_ok data bo s tag off cnt h)

theorem ParseDate_not_panicked (data : Bytes) : notPanicked (ParseDate data) = true := by
  unfold ParseDate
  by_cases h8 : data.length < 8
  · rw [if_pos h8]; rfl
  · rw [if_neg h8]
    push_neg at h8
    cases hbo : byteOrderOf data with
    | none => rfl
    | some bo =>
        apply notPanicked_bind
        · rw [u16At_ok bo data 2 (by omega)]; rfl
        · intro magic
          by_cases hm : magic ≠ 42
          · rw [if_pos hm]; rfl
          · rw [if_neg hm]
            apply notPanicked_bind
            · rw [u32At_ok bo data 4 (by omega)]; rfl
            · intro ifdOffset
              apply notPanicked_bind
              · obtain ⟨r, hr⟩ := scanIFD0_ok data bo ifdOffset
                rw [hr]; rfl
              · intro r
                cases hre : r.2 with
                | some e => rfl
                | none =>
                    dsimp only
                    by_cases heo : r.1.1 > 0
                    · rw [if_pos heo]
                      apply notPanicked_bind
                      · obtain ⟨r2, hr2⟩ := scanExifIFD_ok data bo r.1.1
                        rw [hr2]; rfl
                      · intro r2
                        by_cases ho : r2.1 ≠ ""
                        · rw [if_pos ho]
                          exact liftExcept_notPanicked _
                        · rw [if_neg ho]
                          by_cases hfb : r.1.2 ≠ ""
                          · rw [if_pos hfb]
                            exact liftExcept_notPanicked _
                          · rw [if_neg hfb]; rfl
                    · rw [if_neg heo]
                      by_cases hfb : r.1.2 ≠ ""
                      · rw [if_pos hfb]
                        exact liftExcept_notPanicked _
                      · rw [if_neg hfb]; rfl

theorem stripExifWrapper_not_panicked (data : Bytes) :
    notPanicked (stripExifWrapper data) = true := by
  unfold stripExifWrapper
  apply notPanicked_bind
  · by_cases h4 : data.length ≥ 4
    · rw [if_pos h4]
      apply notPanicked_bind
      · rw [goSlice_ok (by omega) (by omega)]; rfl
      · intro four
        dsimp only
        by_cases hc : 4 + (((four.getD 0 0 * 256 + four.getD 1 0) * 256 + four.getD 2 0) * 256
            + four.getD 3 0) + 6 ≤ data.length
        · rw [if_pos hc]
          apply notPanicked_bind
          · rw [goSlice_ok (by omega) (by omega)]; rfl
          · intro signature
            by_cases hs : signature = [69, 120, 105, 102, 0, 0]
            · rw [if_pos hs]
              apply notPanicked_bind
              · rw [goSlice_ok (by omega) (by omega)]; rfl
              · intro rest; rfl
            · rw [if_neg hs]; rfl
        · rw [if_neg hc]; rfl
    · rw [if_neg h4]; rfl
  · intro strict
    cases strict with
    | some tiff => rfl
    | none => cases hf : findTIFF data <;> simp [notPanicked, hf]

theorem sniffContainer_not_panicked (data : Bytes) :
    notPanicked (sniffContainer data) = true := by
  unfold sniffContainer
  by_cases h12 : data.length < 12
  · rw [if_pos h12]; rfl
  · rw [if_neg h12]
    push_neg at h12
    have htk : (data.take 12).length = 12 := by
      rw [List.length_take]
      exact Nat.min_eq_left h12
    by_cases hj : (data.take 12).getD 0 0 = 255 ∧ (data.take 12).getD 1 0 = 216
    · rw [if_pos hj]; rfl
    · rw [if_neg hj]
      apply notPanicked_bind
      · unfold isHEICsig
        apply notPanicked_bind
        · rw [goSlice_ok (by omega) (by omega)]; rfl
        · intro four
          by_cases hf : four ≠ [102, 116, 121, 112]
          · rw [if_pos hf]; rfl
          · rw [if_neg hf]
            apply notPanicked_bind
            · rw [goSlice_ok (by omega) (by omega)]; rfl
            · intro brand; rfl
      · intro heic
        cases heic
        · simp only [Bool.false_eq_true, if_false]
          by_cases hp : (data.take 12).getD 0 0 = 137 ∧ (data.take 12).getD 1 0 = 80
              ∧ (data.take 12).getD 2 0 = 78 ∧ (data.take 12).getD 3 0 = 71
          · rw [if_pos hp]; rfl
          · rw [if_neg hp]; rfl
        · rfl

/-- C6: the byte-level extraction engine never panics: the full TIFF tag
reader (`ParseDate`, including `iterateTags` and `extractString`, whose
unguarded 4-byte value-offset read is protected by the caller's 12-byte
entry bound), the HEIC wrapper stripper, and the container sniffer return
an ordinary result or error value on *every* input byte sequence.  (The
JPEG/PNG/HEIC stream walks contain no slice indexing; their embeddings
`extractJPEG`, `extractPNG`, `parseIloc` etc. are total `Except`-valued
functions by construction.) -/
theorem claim_C6 :
    (∀ data : Bytes, notPanicked (ParseDate data) = true) ∧
    (∀ data : Bytes, notPanicked (stripExifWrapper data) = true) ∧
    (∀ data : Bytes, notPanicked (sniffContainer data) = true) :=
  ⟨ParseDate_not_panicked, stripExifWrapper_not_panicked, sniffContainer_not_panicked⟩

/-! ## C7 -/

/-- C7: `ParseDate` prefers DateTimeOriginal (tag `0x9003`) from the Exif
sub-IFD pointed to by IFD0 tag `0x8769`: when IFD0's scan yields a
sub-IFD pointer and a fallback DateTime string, a non-empty
DateTimeOriginal string is parsed and returned; otherwise the fallback
string from tag `0x0132` is parsed and returned; when neither yields a
string, the plain "no date tag found" error is reported. -/
theorem claim_C7 (data : Bytes) (bo : ByteOrder) (o eo : Nat) (fb : String)
    (hlen : 8 ≤ data.length)
    (hbo : byteOrderOf data = some bo)
    (hmagic : u16At bo data 2 = .ok 42)
    (hifd : u32At bo data 4 = .ok o)
    (hscan : scanIFD0 data bo o = .ok ((eo, fb), none)) :
    (∀ os e2, 0 < eo → scanExifIFD data bo eo = .ok (os, e2) → os ≠ "" →
        ParseDate data = liftExcept (parseExifTime os)) ∧
    (∀ e2, 0 < eo → scanExifIFD data bo eo = .ok ("", e2) → fb ≠ "" →
        ParseDate data = liftExcept (parseExifTime fb)) ∧
    (∀ e2, 0 < eo → scanExifIFD data bo eo = .ok ("", e2) → fb = "" →
        ParseDate data = .err (plainErr "no date tag found")) ∧
    (eo = 0 → fb ≠ "" → ParseDate data = liftExcept (parseExifTime fb)) ∧
    (eo = 0 → fb = "" → ParseDate data = .err (plainErr "no date tag found")) := by
  have hstep : ParseDate data =
      (if eo > 0 then
        scanExifIFD data bo eo >>= fun r2 =>
          if r2.1 ≠ "" then liftExcept (parseExifTime r2.1)
          else if fb ≠ "" then liftExcept (parseExifTime fb)
          else .err (plainErr "no date tag found")
      else if fb ≠ "" then liftExcept (parseExifTime fb)
      else .err (plainErr "no date tag found")) := by
    unfold ParseDate
    rw [if_neg (by omega), hbo]
    dsimp only
    rw [hmagic, PRes.bind_ok]
    rw [if_neg (fun h : (42 : Nat) ≠ 42 => h rfl), hifd, PRes.bind_ok]
    rw [hscan, PRes.bind_ok]
  refine ⟨?_, ?_, ?_, ?_, ?_⟩
  · intro os e2 heo hexif hos
    rw [hstep, if_pos heo, hexif, PRes.bind_ok, if_pos hos]
  · intro e2 heo hexif hfb
    rw [hstep, if_pos heo, hexif, PRes.bind_ok, if_neg (fun h => h rfl), if_pos hfb]
  · intro e2 heo hexif hfb
    rw [hstep, if_pos heo, hexif, PRes.bind_ok, if_neg (fun h => h rfl),
      if_neg (fun h => h hfb)]
  · intro heo hfb
    rw [hstep, if_neg (by omega), if_pos hfb]
  · intro heo hfb
    rw [hstep, if_neg (by omega), if_neg (fun h => h hfb)]

/-- Witness for C7 on a hand-built little-endian TIFF blob whose IFD0
holds a fallback DateTime and a sub-IFD pointer, and whose sub-IFD holds
DateTimeOriginal `2023:05:10 14:22:31`: that string wins. -/
theorem claim_C7_witness :
    ParseDate
        [73, 73, 42, 0, 8, 0, 0, 0,
         2, 0,
         50, 1, 2, 0, 20, 0, 0, 0, 68, 0, 0, 0,
         105, 135, 4, 0, 1, 0, 0, 0, 34, 0, 0, 0,
         1, 0,
         3, 144, 2, 0, 20, 0, 0, 0, 48, 0, 0, 0,
         50, 48, 50, 51, 58, 48, 53, 58, 49, 48, 32, 49, 52, 58, 50, 50, 58, 51, 49, 0,
         50, 48, 48, 49, 58, 48, 49, 58, 48, 49, 32, 48, 49, 58, 48, 49, 58, 48, 49, 0]
      = liftExcept (parseExifTime "2023:05:10 14:22:31") :=
  (claim_C7 _ .little 8 34 "2001:01:01 01:01:01" (by decide) (by decide) (by decide)
      (by decide) (by decide)).1
    "2023:05:10 14:22:31" none (by decide) (by decide) (by decide)

/-! ## C8 -/

theorem exc_bind_ok (a : α) (f : α → Except GoErr β) :
    (Except.ok a >>= f) = f a := rfl

theorem exc_bind_err (e : GoErr) (f : α → Except GoErr β) :
    ((Except.error e : Except GoErr α) >>= f) = .error e := rfl

theorem errUnsup_bind {m : Except GoErr α} {f : α → Except GoErr β}
    (h : errUnsup m = true) : errUnsup (m >>= f) = true := by
  cases m with
  | error e => exact h
  | ok a => exact absurd h (by simp [errUnsup])

theorem readOneExtent_in_range (file : Bytes) (idat : Nat) (loc : ItemLocation)
    (e : Extent) (hfl : file.length ≤ 2 ^ 63)
    (hnc : loc.constructionMethod = 1 → idat ≠ 0)
    (he : resolvedBase idat loc + e.offset + e.length ≤ file.length) :
    readOneExtent file idat loc e =
      .ok (if e.length = 0 then none
           else some ((file.drop (resolvedBase idat loc + e.offset)).take e.length)) := by
  unfold readOneExtent
  by_cases hm : loc.constructionMethod = 1
  · have hid : ¬ idat = 0 := hnc hm
    rw [if_pos hm, if_neg hid, exc_bind_ok]
    unfold resolvedBase at he ⊢
    rw [if_pos hm] at he ⊢
    have hmod : (idat + loc.baseOffset + e.offset) % 2 ^ 64
        = idat + loc.baseOffset + e.offset := Nat.mod_eq_of_lt (by omega)
    rw [hmod]
    by_cases h0 : e.length = 0
    · rw [if_pos h0, if_pos h0]
    · rw [if_neg h0, if_neg h0, if_neg (by omega), if_neg (by omega)]
  · rw [if_neg hm, exc_bind_ok]
    unfold resolvedBase at he ⊢
    rw [if_neg hm] at he ⊢
    have hmod : (loc.baseOffset + e.offset) % 2 ^ 64
        = loc.baseOffset + e.offset := Nat.mod_eq_of_lt (by omega)
    rw [hmod]
    by_cases h0 : e.length = 0
    · rw [if_pos h0, if_pos h0]
    · rw [if_neg h0, if_neg h0, if_neg (by omega), if_neg (by omega)]

theorem readItemExtents_in_range (file : Bytes) (idat : Nat) (loc : ItemLocation)
    (hfl : file.length ≤ 2 ^ 63)
    (hnc : loc.constructionMethod = 1 → idat ≠ 0) :
    ∀ exts, (∀ e ∈ exts, resolvedBase idat loc + e.offset + e.length ≤ file.length) →
      readItemExtents file idat loc exts =
        .ok (exts.flatMap fun e =>
          (file.drop (resolvedBase idat loc + e.offset)).take e.length) := by
  intro exts
  induction exts with
  | nil => intro _; rfl
  | cons e rest ih =>
      intro hr
      have he := hr e (List.mem_cons_self _ _)
      have hrest := fun e' h' => hr e' (List.mem_cons_of_mem _ h')
      simp only [readItemExtents]
      rw [readOneExtent_in_range file idat loc e hfl hnc he, exc_bind_ok,
        ih hrest, exc_bind_ok]
      by_cases h0 : e.length = 0
      · simp only [h0, List.flatMap_cons, List.take_zero, Option.getD_none, if_pos rfl,
          List.nil_append]
        rfl
      · simp only [h0, List.flatMap_cons, if_neg h0, Option.getD_some]
        rfl

theorem readItemData_ok_of_in_range (file : Bytes) (idat : Nat)
    (hfl : file.length ≤ 2 ^ 63) :
    ∀ locs, (∀ loc ∈ locs, ∀ e ∈ loc.extents,
        resolvedBase idat loc + e.offset + e.length ≤ file.length) →
      (idat = 0 → ∀ loc ∈ locs, loc.constructionMethod = 1 → loc.extents = []) →
      readItemData file locs idat = .ok (specItemPayload file locs idat) := by
  intro locs
  induction locs with
  | nil => intro _ _; rfl
  | cons loc rest ih =>
      intro hrange hid
      simp only [readItemData]
      have hloc : readItemExtents file idat loc loc.extents =
          .ok (loc.extents.flatMap fun e =>
            (file.drop (resolvedBase idat loc + e.offset)).take e.length) := by
        by_cases hz : idat = 0
        · by_cases hm : loc.constructionMethod = 1
          · have : loc.extents = [] := hid hz loc (List.mem_cons_self _ _) hm
            rw [this]; rfl
          · exact readItemExtents_in_range file idat loc hfl (fun h => absurd h hm) _
              (fun e h' => hrange loc (List.mem_cons_self _ _) e h')
        · exact readItemExtents_in_range file idat loc hfl (fun _ => hz) _
            (fun e h' => hrange loc (List.mem_cons_self _ _) e h')
      rw [hloc, exc_bind_ok,
        ih (fun l hl e he' => hrange l (List.mem_cons_of_mem _ hl) e he')
          (fun hz l hl => hid hz l (List.mem_cons_of_mem _ hl)), exc_bind_ok]
      simp only [specItemPayload, List.flatMap_cons]
      rfl

theorem readItemData_err_of_missing_idat (file : Bytes)
    (hfl : file.length ≤ 2 ^ 63) :
    ∀ locs, (∀ loc ∈ locs, loc.constructionMethod ≠ 1 → ∀ e ∈ loc.extents,
        loc.baseOffset + e.offset + e.length ≤ file.length) →
      (∃ loc, loc ∈ locs ∧ loc.constructionMethod = 1 ∧ loc.extents ≠ []) →
      errUnsup (readItemData file locs 0) = true := by
  intro locs
  induction locs with
  | nil =>
      intro _ hex
      obtain ⟨loc, hmem, _⟩ := hex
      cases hmem
  | cons loc rest ih =>
      intro hrange hex
      simp only [readItemData]
      by_cases hm : loc.constructionMethod = 1
      · cases hext : loc.extents with
        | nil =>
            have hloc : readItemExtents file 0 loc [] = .ok [] := rfl
            rw [hloc, exc_bind_ok]
            apply errUnsup_bind
            apply ih (fun l hl h1 e he' => hrange l (List.mem_cons_of_mem _ hl) h1 e he')
            obtain ⟨w, hmem, hw1, hw2⟩ := hex
            rcases List.mem_cons.mp hmem with hwl | hwr
            · exact absurd (hwl ▸ hext) hw2
            · exact ⟨w, hwr, hw1, hw2⟩
        | cons e es =>
            have hone : readOneExtent file 0 loc e =
                .error (unsupErr "item uses idat-relative offset but idat box not found") := by
              unfold readOneExtent
              rw [if_pos hm, if_pos rfl, exc_bind_err]
            have hloc : readItemExtents file 0 loc (e :: es) =
                .error (unsupErr "item uses idat-relative offset but idat box not found") := by
              simp only [readItemExtents]
              rw [hone, exc_bind_err]
            rw [hloc, exc_bind_err]
            rfl
      · have hloc := readItemExtents_in_range file 0 loc hfl (fun h => absurd h hm)
          loc.extents (by
            intro e he'
            have := hrange loc (List.mem_cons_self _ _) hm e he'
            unfold resolvedBase
            rw [if_neg hm]
            exact this)
        rw [hloc, exc_bind_ok]
        apply errUnsup_bind
        apply ih (fun l hl h1 e he' => hrange l (List.mem_cons_of_mem _ hl) h1 e he')
        obtain ⟨w, hmem, hw1, hw2⟩ := hex
        rcases List.mem_cons.mp hmem with hwl | hwr
        · exact absurd (hwl ▸ hm) (fun h => h hw1)
        · exact ⟨w, hwr, hw1, hw2⟩

/-- C8: `readItemData` returns the concatenation, in extent order, of the
bytes at the resolved base (baseOffset, plus the `idat` data start for an
idat-relative construction method) plus the extent offset — zero-length
extents contributing nothing — whenever every extent is in range; and an
idat-relative location with any extent while no `idat` box was located
(offset 0) makes the whole item fail with an `ErrUnsupported` error,
never a panic. -/
theorem claim_C8 :
    (∀ (file : Bytes) (locs : List ItemLocation) (idat : Nat),
        file.length ≤ 2 ^ 63 →
        (∀ loc ∈ locs, ∀ e ∈ loc.extents,
          resolvedBase idat loc + e.offset + e.length ≤ file.length) →
        (idat = 0 → ∀ loc ∈ locs, loc.constructionMethod = 1 → loc.extents = []) →
        readItemData file locs idat = .ok (specItemPayload file locs idat)) ∧
    (∀ (file : Bytes) (locs : List ItemLocation),
        file.length ≤ 2 ^ 63 →
        (∀ loc ∈ locs, loc.constructionMethod ≠ 1 → ∀ e ∈ loc.extents,
          loc.baseOffset + e.offset + e.length ≤ file.length) →
        (∃ loc, loc ∈ locs ∧ loc.constructionMethod = 1 ∧ loc.extents ≠ []) →
        errUnsup (readItemData file locs 0) = true) :=
  ⟨fun file locs idat hfl h1 h2 => readItemData_ok_of_in_range file idat hfl locs h1 h2,
   fun file locs hfl h1 h2 => readItemData_err_of_missing_idat file hfl locs h1 h2⟩

/-- Witness for C8: a twenty-byte file, one idat-relative location with
two extents resolved against `idat` data start 4 — the payload is the
byte-for-byte concatenation of the two slices — and a location needing an
`idat` box that was not located fails as unsupported. -/
theorem claim_C8_witness :
    readItemData (List.range 20) [⟨1, 2, [⟨3, 2⟩, ⟨8, 3⟩]⟩] 4
      = .ok (specItemPayload (List.range 20) [⟨1, 2, [⟨3, 2⟩, ⟨8, 3⟩]⟩] 4) ∧
    specItemPayload (List.range 20) [⟨1, 2, [⟨3, 2⟩, ⟨8, 3⟩]⟩] 4
      = [9, 10, 14, 15, 16] ∧
    errUnsup (readItemData [0, 1, 2, 3] [⟨1, 0, [⟨0, 5⟩]⟩] 0) = true := by
  refine ⟨claim_C8.1 (List.range 20) [⟨1, 2, [⟨3, 2⟩, ⟨8, 3⟩]⟩] 4 (by decide)
      (by decide) (by decide), by decide,
    claim_C8.2 [0, 1, 2, 3] [⟨1, 0, [⟨0, 5⟩]⟩] (by decide) (by decide)
      ⟨⟨1, 0, [⟨0, 5⟩]⟩, by decide, rfl, by decide⟩⟩

/-! ## C9 -/

theorem readPadding_replicate (k s : Nat) :
    readPadding (List.replicate k 255) s = (none, s + k) := by
  induction k generalizing s with
  | zero => simp [readPadding]
  | succ m ih =>
      rw [List.replicate_succ, readPadding, if_pos rfl, ih]
      have hsum : s + 1 + m = s + (m + 1) := by omega
      rw [hsum]

theorem jpegLoop_allFF (k s fuel : Nat) (hs : s < 1048576) :
    jpegLoop (fuel + 1) (List.replicate (k + 1) 255) s = (.error eofErr, []) := by
  rw [List.replicate_succ]
  simp only [jpegLoop]
  rw [if_pos hs, readPadding_replicate]
  simp

set_option maxRecDepth 4096 in
/-- C9 counterexample: a stream of `2^20 + 8` padding bytes (`0xFF`) is
consumed in its entirety — `2^20 + 8` bytes, strictly more than the 1 MiB
hard scan limit the claim asserts is never exceeded — because the padding
loop does not check the scan budget. -/
theorem claim_C9_counterexample :
    (extractJPEGrun (List.replicate (2 ^ 20 + 8) 255)).2 = [] ∧
    (List.replicate (2 ^ 20 + 8) 255).length -
      ((extractJPEGrun (List.replicate (2 ^ 20 + 8) 255)).2).length > 2 ^ 20 := by
  have hrun : extractJPEGrun (List.replicate (2 ^ 20 + 8) 255) = (.error eofErr, []) := by
    have h := jpegLoop_allFF (2 ^ 20 + 7) 0 (2 ^ 20 + 8) (by norm_num)
    unfold extractJPEGrun
    rw [List.length_replicate]
    norm_num only at h ⊢
    exact h
  rw [hrun]
  refine ⟨rfl, ?_⟩
  rw [List.length_replicate]
  norm_num

theorem jpegLoop_remaining_le :
    ∀ fuel stream scanned, ((jpegLoop fuel stream scanned).2).length ≤ stream.length := by
  intro fuel
  induction fuel with
  | zero => intro stream scanned; exact Nat.le_refl _
  | succ f ih =>
      intro stream scanned
      simp only [jpegLoop]
      by_cases hs : scanned < 1048576
      · rw [if_pos hs]
        cases stream with
        | nil => exact Nat.le_refl _
        | cons b rest =>
            dsimp only
            simp only [List.length_cons]
            by_cases hb : b ≠ 255
            · rw [if_pos hb]
              exact Nat.le_trans (ih rest (scanned + 1)) (Nat.le_succ _)
            · rw [if_neg hb]
              cases hp : readPadding rest (scanned + 1) with
              | mk opt sc =>
                  cases opt with
                  | none => simp
                  | some pr =>
                      obtain ⟨marker, rest1⟩ := pr
                      dsimp only
                      have hr1 : rest1.length ≤ rest.length := by
                        clear ih hs hb
                        induction rest generalizing scanned with
                        | nil => simp [readPadding] at hp
                        | cons c cs ihc =>
                            by_cases hc : c = 255
                            · rw [readPadding, if_pos hc] at hp
                              exact Nat.le_trans (ihc _ hp) (Nat.le_succ _)
                            · rw [readPadding, if_neg hc] at hp
                              simp only [Prod.mk.injEq, Option.some.injEq] at hp
                              obtain ⟨⟨hcm, hcs⟩, hsc⟩ := hp
                              subst hcs
                              exact Nat.le_succ _
                      by_cases hd8 : marker = 0xD8
                      · rw [if_pos hd8]
                        exact Nat.le_trans (ih rest1 sc)
                          (Nat.le_trans hr1 (Nat.le_succ _))
                      · rw [if_neg hd8]
                        by_cases heoi : marker = 0xD9 ∨ marker = 0xDA
                        · rw [if_pos heoi]
                          exact Nat.le_trans hr1 (Nat.le_succ _)
                        · rw [if_neg heoi]
                          by_cases hstand : marker = 1 ∨ (0xD0 ≤ marker ∧ marker ≤ 0xD7)
                          · rw [if_pos hstand]
                            exact Nat.le_trans (ih rest1 sc)
                              (Nat.le_trans hr1 (Nat.le_succ _))
                          · rw [if_neg hstand]
                            cases rest1 with
                            | nil => simp
                            | cons l1 tl =>
                                cases tl with
                                | nil => simp
                                | cons l2 rest2 =>
                                    dsimp only
                                    have hr2 : rest2.length + 2 ≤ rest.length := by
                                      simpa using hr1
                                    by_cases hexif : marker = 0xE1
                                        ∧ (l1 : Int) * 256 + (l2 : Int) - 2 ≥ 6
                                        ∧ rest2.take 6 = exifSig
                                    · rw [if_pos hexif]
                                      by_cases hln : ((l1 : Int) * 256 + (l2 : Int) - 2).toNat
                                          ≤ rest2.length
                                      · rw [if_pos hln]
                                        simp only [List.length_drop]
                                        omega
                                      · rw [if_neg hln]
                                        simp
                                    · rw [if_neg hexif]
                                      by_cases hbud : (l1 : Int) * 256 + (l2 : Int) - 2
                                          > (1048576 : Int) - ((sc + 2 : Nat) : Int)
                                      · rw [if_pos hbud]
                                        simp only
                                        omega
                                      · rw [if_neg hbud]
                                        by_cases hpos : (l1 : Int) * 256 + (l2 : Int) - 2 > 0
                                        · rw [if_pos hpos]
                                          by_cases hln : ((l1 : Int) * 256 + (l2 : Int) - 2).toNat
                                              ≤ rest2.length
                                          · rw [if_pos hln]
                                            have := ih (rest2.drop
                                              ((l1 : Int) * 256 + (l2 : Int) - 2).toNat)
                                              (sc + 2 + ((l1 : Int) * 256 + (l2 : Int) - 2).toNat)
                                            simp only [List.length_drop] at this
                                            omega
                                          · rw [if_neg hln]
                                            simp
                                        · rw [if_neg hpos]
                                          have := ih rest2 (sc + 2)
                                          omega
      · rw [if_neg hs]

theorem jpegLoop_stop_eoi (fuel s m : Nat) (rest : List Nat) (hs : s < 1048576)
    (hm : m = 0xD9 ∨ m = 0xDA) :
    jpegLoop (fuel + 1) (255 :: m :: rest) s = (.ok none, rest) := by
  have hm255 : ¬ m = 255 := by omega
  have hmD8 : ¬ m = 0xD8 := by omega
  simp only [jpegLoop]
  rw [if_pos hs]
  rw [if_neg (show ¬ ((255 : Nat) ≠ 255) from fun h => h rfl)]
  simp only [readPadding]
  rw [if_neg hm255]
  dsimp only
  rw [if_neg hmD8, if_pos hm]

theorem jpegLoop_stop_budget (fuel s m l1 l2 : Nat) (rest : List Nat)
    (hs : s < 1048576) (hm255 : m ≠ 255) (hmD8 : m ≠ 0xD8)
    (hme : ¬ (m = 0xD9 ∨ m = 0xDA))
    (hstand : ¬ (m = 1 ∨ (0xD0 ≤ m ∧ m ≤ 0xD7)))
    (hmE1 : m ≠ 0xE1)
    (hbud : (l1 : Int) * 256 + (l2 : Int) - 2 > (1048576 : Int) - ((s + 4 : Nat) : Int)) :
    jpegLoop (fuel + 1) (255 :: m :: l1 :: l2 :: rest) s = (.ok none, rest) := by
  simp only [jpegLoop]
  rw [if_pos hs]
  rw [if_neg (show ¬ ((255 : Nat) ≠ 255) from fun h => h rfl)]
  simp only [readPadding]
  rw [if_neg hm255]
  dsimp only
  rw [if_neg hmD8, if_neg hme, if_neg hstand]
  rw [if_neg (fun hc => hmE1 hc.1)]
  rw [if_pos (by push_cast at hbud ⊢; omega)]

/-- C9 (amended): the JPEG marker scan always terminates within the input
stream (consumption never exceeds the stream), it stops reporting no-EXIF
on an EOI (`0xD9`) or SOS (`0xDA`) marker, and a non-APP1 segment whose
declared payload would push the scanned budget past the 1 MiB limit stops
the scan reporting no-EXIF; however `0xFF` padding runs and a matched
APP1 Exif payload are consumed without the budget check, so total
consumption can exceed 1 MiB (bounded only by the stream's end). -/
theorem claim_C9_amended :
    (∀ fuel stream scanned,
        ((jpegLoop fuel stream scanned).2).length ≤ stream.length) ∧
    (∀ (fuel s m : Nat) (rest : List Nat), s < 1048576 → (m = 0xD9 ∨ m = 0xDA) →
        jpegLoop (fuel + 1) (255 :: m :: rest) s = (.ok none, rest)) ∧
    (∀ (fuel s m l1 l2 : Nat) (rest : List Nat), s < 1048576 → m ≠ 255 → m ≠ 0xD8 →
        ¬ (m = 0xD9 ∨ m = 0xDA) → ¬ (m = 1 ∨ (0xD0 ≤ m ∧ m ≤ 0xD7)) → m ≠ 0xE1 →
        (l1 : Int) * 256 + (l2 : Int) - 2 > (1048576 : Int) - ((s + 4 : Nat) : Int) →
        jpegLoop (fuel + 1) (255 :: m :: l1 :: l2 :: rest) s = (.ok none, rest)) :=
  ⟨jpegLoop_remaining_le,
   fun fuel s m rest h1 h2 => jpegLoop_stop_eoi fuel s m rest h1 h2,
   fun fuel s m l1 l2 rest h1 h2 h3 h4 h5 h6 h7 =>
     jpegLoop_stop_budget fuel s m l1 l2 rest h1 h2 h3 h4 h5 h6 h7⟩

/-- Witness for the amended C9: concrete instances of the three parts —
a bound on a small stream, the EOI stop, and the budget stop for an APP0
segment declared near the limit. -/
theorem claim_C9_witness :
    ((jpegLoop 3 [1, 2] 0).2).length ≤ 2 ∧
    jpegLoop 1 (255 :: 217 :: [42]) 0 = (.ok none, [42]) ∧
    jpegLoop 1 (255 :: 224 :: 0 :: 10 :: [7]) 1048570 = (.ok none, [7]) := by
  refine ⟨?_, ?_, ?_⟩
  · simpa using claim_C9_amended.1 3 [1, 2] 0
  · exact claim_C9_amended.2.1 0 0 217 [42] (by decide) (by decide)
  · exact claim_C9_amended.2.2 0 1048570 224 0 10 [7] (by decide) (by decide)
      (by decide) (by decide) (by decide) (by decide) (by decide)

/-! ## C10 -/

/-- C10: when the `infe` scan collects more than one `Exif` item ID,
`ExtractExifFromHEIC` continues — location resolution, payload reading,
wrapper stripping — with only the *first* collected ID (in `infe` scan
order); the later IDs are collected but play no further part.  The
conclusion exhibits the whole remainder of the pipeline as a function of
`id1` alone. -/
theorem claim_C10 (file : Bytes) (meta iinf : BoxHeader) (id1 : Nat) (ids : List Nat)
    (hmeta : findBox file 0 UMAX metaT = .ok meta)
    (hiinf : findBox file (meta.dataOffset + 4) (meta.dataOffset + meta.dataSize) iinfT
      = .ok iinf)
    (hinfe : parseInfeForExif file iinf = .ok (id1 :: ids))
    (hmany : ids ≠ []) :
    ExtractExifFromHEIC file =
      (liftExcept (heicResolveAndRead file (meta.dataOffset + 4)
        (meta.dataOffset + meta.dataSize) id1) >>= stripExifWrapper) := by
  unfold ExtractExifFromHEIC
  rw [hmeta]
  dsimp only [liftExcept]
  rw [PRes.bind_ok]
  rw [hiinf]
  dsimp only [liftExcept]
  rw [PRes.bind_ok]
  rw [hinfe]
  dsimp only [liftExcept]
  rw [PRes.bind_ok]

set_option maxRecDepth 100000 in
/-- Witness for C10 on a synthetic HEIC byte file whose `iinf` declares
two `Exif` items (IDs 1 and 2) with distinct payloads: the pipeline
reduces to the resolution of ID 1, and the final result is the first
item's payload (a raw little-endian TIFF prefix). -/
theorem claim_C10_witness :
    ExtractExifFromHEIC
        [0, 0, 0, 110, 109, 101, 116, 97, 0, 0, 0, 0,
         0, 0, 0, 54, 105, 105, 110, 102, 0, 0, 0, 0, 0, 2,
         0, 0, 0, 20, 105, 110, 102, 101, 2, 0, 0, 0, 0, 1, 0, 0, 69, 120, 105, 102,
         0, 0, 0, 20, 105, 110, 102, 101, 2, 0, 0, 0, 0, 2, 0, 0, 69, 120, 105, 102,
         0, 0, 0, 44, 105, 108, 111, 99, 0, 0, 0, 0, 68, 0, 0, 2,
         0, 1, 0, 0, 0, 1, 0, 0, 0, 110, 0, 0, 0, 6,
         0, 2, 0, 0, 0, 1, 0, 0, 0, 116, 0, 0, 0, 5,
         73, 73, 42, 0, 9, 9,
         77, 77, 0, 42, 7]
      = (liftExcept (heicResolveAndRead
          [0, 0, 0, 110, 109, 101, 116, 97, 0, 0, 0, 0,
           0, 0, 0, 54, 105, 105, 110, 102, 0, 0, 0, 0, 0, 2,
           0, 0, 0, 20, 105, 110, 102, 101, 2, 0, 0, 0, 0, 1, 0, 0, 69, 120, 105, 102,
           0, 0, 0, 20, 105, 110, 102, 101, 2, 0, 0, 0, 0, 2, 0, 0, 69, 120, 105, 102,
           0, 0, 0, 44, 105, 108, 111, 99, 0, 0, 0, 0, 68, 0, 0, 2,
           0, 1, 0, 0, 0, 1, 0, 0, 0, 110, 0, 0, 0, 6,
           0, 2, 0, 0, 0, 1, 0, 0, 0, 116, 0, 0, 0, 5,
           73, 73, 42, 0, 9, 9,
           77, 77, 0, 42, 7] 12 110 1) >>= stripExifWrapper) ∧
    ExtractExifFromHEIC
        [0, 0, 0, 110, 109, 101, 116, 97, 0, 0, 0, 0,
         0, 0, 0, 54, 105, 105, 110, 102, 0, 0, 0, 0, 0, 2,
         0, 0, 0, 20, 105, 110, 102, 101, 2, 0, 0, 0, 0, 1, 0, 0, 69, 120, 105, 102,
         0, 0, 0, 20, 105, 110, 102, 101, 2, 0, 0, 0, 0, 2, 0, 0, 69, 120, 105, 102,
         0, 0, 0, 44, 105, 108, 111, 99, 0, 0, 0, 0, 68, 0, 0, 2,
         0, 1, 0, 0, 0, 1, 0, 0, 0, 110, 0, 0, 0, 6,
         0, 2, 0, 0, 0, 1, 0, 0, 0, 116, 0, 0, 0, 5,
         73, 73, 42, 0, 9, 9,
         77, 77, 0, 42, 7]
      = .ok (some [73, 73, 42, 0, 9, 9]) := by
  constructor
  · exact claim_C10 _ ⟨0, 110, metaT, 8, 102⟩ ⟨12, 54, iinfT, 20, 46⟩ 1 [2]
      (by decide) (by decide) (by decide) (by decide)
  · decide

end Exisort
